import Mathlib

/-!
Verification development for the `joke-cli` repository.

Strings of the Python source are modelled as `List Char`; `datetime`
values as a record of calendar fields; machine integers as `Int`/`Nat`
(Python integers are unbounded, so no wraparound is modelled); fallible
Python code (code that can raise) as `Except`/`Option` returning
functions.  Each definition is a direct translation of the function of
the same name in the repository, with the source file noted in its doc
comment.
-/

namespace JokeCli

/-- Python `str.strip()` whitespace test, restricted to the ASCII
whitespace characters that can actually occur in this code base
(space, tab, newline, carriage return, vertical tab, form feed). -/
def isPySpace (c : Char) : Bool :=
  c = ' ' || c = '\t' || c = '\n' || c = '\r' || c = Char.ofNat 11 || c = Char.ofNat 12

/-- Drop trailing characters satisfying `isPySpace` (right half of
Python `str.strip()`), written by structural recursion so that it
computes by kernel reduction. -/
def dropTrail : List Char → List Char
  | [] => []
  | c :: cs =>
    let t := dropTrail cs
    if t.isEmpty && isPySpace c then [] else c :: t

/-- Python `str.strip()` on a `List Char`. -/
def pyStrip (s : List Char) : List Char :=
  dropTrail (s.dropWhile isPySpace)

/-- Python `str.split('\n')`: split at every newline, keeping empty
pieces (so `splitNl [] = [[]]`, like `"".split('\n') == ['']`). -/
def splitNl : List Char → List (List Char)
  | [] => [[]]
  | c :: cs =>
    if c = '\n' then [] :: splitNl cs
    else
      match splitNl cs with
      | [] => [[c]]
      | l :: ls => (c :: l) :: ls

/-- Python `'\n'.join(lines)`. -/
def joinNl : List (List Char) → List Char
  | [] => []
  | [l] => l
  | l :: ls => l ++ '\n' :: joinNl ls

/-- Python `str.lower()` restricted to ASCII letters (the prefix and
suffix lists compared against are pure ASCII). -/
def lowerList (s : List Char) : List Char :=
  s.map Char.toLower

/-- Python `str.replace(pat, '')` for a non-empty pattern: scan left to
right removing non-overlapping occurrences.  Fuel-based so that it
computes by kernel reduction; each step consumes at least one
character, so `s.length` fuel always suffices. -/
def removeSubstrAux (pat : List Char) : Nat → List Char → List Char
  | _, [] => []
  | 0, s => s
  | fuel + 1, c :: cs =>
    if pat.isPrefixOf (c :: cs) then removeSubstrAux pat fuel (cs.drop (pat.length - 1))
    else c :: removeSubstrAux pat fuel cs

/-- Python `str.replace(pat, '')` (`pat` is never empty at the call
sites in this code base; an empty pattern is returned unchanged). -/
def removeSubstr (pat s : List Char) : List Char :=
  if pat.isEmpty then s else removeSubstrAux pat s.length s

/-- Python `str.strip('{}')`: drop leading and trailing braces. -/
def stripCurly (s : List Char) : List Char :=
  let isBrace : Char → Bool := fun c => c = '{' || c = '}'
  ((s.dropWhile isBrace).reverse.dropWhile isBrace).reverse

/-- Hexadecimal digit test, as accepted by Python `int(_, 16)` for the
digits of a UUID. -/
def isHexDigitChar (c : Char) : Bool :=
  c.isDigit || ('a' ≤ c && c ≤ 'f') || ('A' ≤ c && c ≤ 'F')

/-- Does `uuid.UUID(s)` accept the string?  CPython normalises the
argument by removing `urn:` and `uuid:` occurrences, stripping
surrounding braces and removing hyphens, then requires exactly 32
characters acceptable to `int(_, 16)`.  (The exotic `int` spellings
such as an embedded `0x` prefix or sign are not modelled; no claim
depends on them and the canonical 8-4-4-4-12 form used everywhere in
this code base is handled exactly.) -/
def isValidUUID (s : List Char) : Bool :=
  let hex := removeSubstr ['-']
    (stripCurly (removeSubstr "uuid:".toList (removeSubstr "urn:".toList s)))
  hex.length = 32 && hex.all isHexDigitChar

/-- The `k` decimal digits of `n` (most significant first), left-padded
with zeros; the rendering used by `datetime.isoformat` for each field
(every rendered field is `< 10 ^ k`, so no truncation occurs). -/
def padDigits : Nat → Nat → List Char
  | 0, _ => []
  | k + 1, n => Char.ofNat (48 + n / 10 ^ k) :: padDigits k (n % 10 ^ k)

/-- Read exactly `k` decimal digits from the front of `s`, folding them
onto the accumulator; `none` if a non-digit (or the end) is hit. -/
def readDigitsAux : Nat → Nat → List Char → Option (Nat × List Char)
  | 0, acc, s => some (acc, s)
  | _ + 1, _, [] => none
  | k + 1, acc, c :: s =>
    if c.isDigit then readDigitsAux k (acc * 10 + (c.toNat - 48)) s else none

/-- Read exactly `k` decimal digits from the front of `s`. -/
def readDigits (k : Nat) (s : List Char) : Option (Nat × List Char) :=
  readDigitsAux k 0 s

/-- Expect character `c` at the front of `s`. -/
def expectChar (c : Char) : List Char → Option (List Char)
  | [] => none
  | d :: s => if d = c then some s else none

/-- Python `datetime` value (naive, as produced by `datetime.now()`). -/
structure PyDatetime where
  year : Nat
  month : Nat
  day : Nat
  hour : Nat
  minute : Nat
  second : Nat
  microsecond : Nat
deriving DecidableEq, Repr

/-- Python leap-year rule (`calendar.isleap`). -/
def isLeapYear (y : Nat) : Bool :=
  y % 4 = 0 && (y % 100 ≠ 0 || y % 400 = 0)

/-- Days in a month, as enforced by the `datetime` constructor. -/
def daysInMonth (y m : Nat) : Nat :=
  if m = 2 then (if isLeapYear y then 29 else 28)
  else if m = 4 || m = 6 || m = 9 || m = 11 then 30
  else 31

/-- The field ranges enforced by the Python `datetime` constructor
(`MINYEAR = 1`, `MAXYEAR = 9999`).  Every value built by
`datetime.now()` satisfies this. -/
def PyDatetime.valid (d : PyDatetime) : Bool :=
  1 ≤ d.year && d.year ≤ 9999 &&
  1 ≤ d.month && d.month ≤ 12 &&
  1 ≤ d.day && d.day ≤ daysInMonth d.year d.month &&
  d.hour ≤ 23 && d.minute ≤ 59 && d.second ≤ 59 && d.microsecond ≤ 999999

/-- `datetime.isoformat()`: `YYYY-MM-DDTHH:MM:SS` with `.ffffff`
appended exactly when the microsecond field is non-zero. -/
def PyDatetime.isoformat (d : PyDatetime) : List Char :=
  padDigits 4 d.year ++ '-' :: padDigits 2 d.month ++ '-' :: padDigits 2 d.day ++
  'T' :: padDigits 2 d.hour ++ ':' :: padDigits 2 d.minute ++ ':' :: padDigits 2 d.second ++
  (if d.microsecond = 0 then [] else '.' :: padDigits 6 d.microsecond)

/-- Tail of the ISO parse: an empty remainder means microsecond 0; a
`.` introduces exactly six fractional-second digits. -/
def readMicroseconds : List Char → Option (Nat × List Char)
  | [] => some (0, [])
  | c :: rest => if c = '.' then readDigits 6 rest else none

/-- `datetime.fromisoformat` on the canonical forms produced by
`isoformat` (the only forms this code base ever feeds it); other
accepted Python spellings (date-only, timezone offsets, separators
other than `T`) are rejected here, and no claim depends on them.
Field ranges are validated exactly as the `datetime` constructor
does. -/
def pyFromisoformat (s : List Char) : Option PyDatetime :=
  match readDigits 4 s with
  | none => none
  | some (y, s1) =>
  match expectChar '-' s1 with
  | none => none
  | some s2 =>
  match readDigits 2 s2 with
  | none => none
  | some (mo, s3) =>
  match expectChar '-' s3 with
  | none => none
  | some s4 =>
  match readDigits 2 s4 with
  | none => none
  | some (da, s5) =>
  match expectChar 'T' s5 with
  | none => none
  | some s6 =>
  match readDigits 2 s6 with
  | none => none
  | some (hh, s7) =>
  match expectChar ':' s7 with
  | none => none
  | some s8 =>
  match readDigits 2 s8 with
  | none => none
  | some (mi, s9) =>
  match expectChar ':' s9 with
  | none => none
  | some s10 =>
  match readDigits 2 s10 with
  | none => none
  | some (se, s11) =>
  match readMicroseconds s11 with
  | none => none
  | some (us, s12) =>
    if s12 = [] then
      if (PyDatetime.mk y mo da hh mi se us).valid then
        some (PyDatetime.mk y mo da hh mi se us)
      else none
    else none

/-- ASCII apostrophe, used to spell string constants of the source that
contain one. -/
def apos : Char := '\''

/-- Python string truthiness of an `Optional[str]` (`None` and the
empty string are falsy). -/
def pyTruthyStrOpt : Option (List Char) → Bool
  | none => false
  | some s => !s.isEmpty

/-- Python `s or d` for a string `s`: `d` when `s` is empty. -/
def pyOrStr (s d : List Char) : List Char :=
  if s.isEmpty then d else s

/-- Python `', '.join(parts)`. -/
def joinCommaSpace : List (List Char) → List Char
  | [] => []
  | [l] => l
  | l :: ls => l ++ ',' :: ' ' :: joinCommaSpace ls

/-! ## config.py — constants -/

/-- config.py `DEFAULT_MODEL_ID`. -/
def DEFAULT_MODEL_ID : List Char := "us.anthropic.claude-sonnet-4-20250514-v1:0".toList

/-- config.py `MAX_TOKENS`. -/
def MAX_TOKENS : Nat := 200

/-- Python floats of this code base are modelled exactly as integer
hundredths (every float the program manipulates is either one of the
constants 0.7 / 0.9 / 0.0 or a value of `round(x, 2)`, all of which
are exact multiples of 1/100).  config.py `TEMPERATURE = 0.7`. -/
def TEMPERATURE : Int := 70

/-- config.py `TOP_P = 0.9`, in hundredths. -/
def TOP_P : Int := 90

/-- config.py `API_TIMEOUT_SECONDS`. -/
def API_TIMEOUT_SECONDS : Nat := 10

/-- config.py `MAX_RETRIES`. -/
def MAX_RETRIES : Nat := 3

/-- config.py `AVAILABLE_CATEGORIES` (also the key set of
prompts.py `JOKE_PROMPTS`). -/
def AVAILABLE_CATEGORIES : List (List Char) :=
  ["general".toList, "programming".toList, "dad-jokes".toList, "puns".toList, "clean".toList]

/-- config.py `FEEDBACK_RATING_MIN`. -/
def FEEDBACK_RATING_MIN : Int := 1

/-- config.py `FEEDBACK_RATING_MAX`. -/
def FEEDBACK_RATING_MAX : Int := 5

/-! ## prompts.py -/

/-- prompts.py `validate_category`. -/
def validate_category (category : List Char) : Bool :=
  AVAILABLE_CATEGORIES.contains category

/-- prompts.py `get_available_categories` (returns a copy of
`AVAILABLE_CATEGORIES`). -/
def get_available_categories : List (List Char) :=
  AVAILABLE_CATEGORIES

/-- prompts.py `get_joke_prompt` for a concrete (non-`None`) category:
raises `ValueError` when the category is not a key of `JOKE_PROMPTS`
(the key set equals `AVAILABLE_CATEGORIES`).  The prompt texts are long
fixed string constants whose content no claim depends on; the lookup is
modelled as returning the category's name as its prompt token. -/
def get_joke_promptE (category : List Char) : Except (List Char) (List Char) :=
  if validate_category category then .ok category
  else
    .error ("Invalid category ".toList ++ apos :: category ++ apos ::
      ". Available categories: ".toList ++ joinCommaSpace AVAILABLE_CATEGORIES)

/-! ## config.py `ERROR_MESSAGES` — the `message` templates used by the
generation path, after `str.format` substitution
(error_handler.py `ErrorHandler.format_error_message`). -/

/-- ERROR_MESSAGES invalid_category message:
`Invalid joke category '{category}'.` -/
def invalidCategoryMessage (category : List Char) : List Char :=
  "Invalid joke category ".toList ++ apos :: category ++ apos :: ".".toList

/-- ERROR_MESSAGES invalid_category guidance, first line:
`Available categories: {available_categories}` (this, not the message,
is where the valid category set is rendered). -/
def invalidCategoryGuidanceHead (available_categories : List Char) : List Char :=
  "Available categories: ".toList ++ available_categories

/-- ERROR_MESSAGES empty_response message. -/
def emptyResponseMessage : List Char :=
  "The AI model returned an empty response.".toList

/-! ## bedrock_client.py — the error taxonomy

`BedrockClientError` values are raised by `_get_client`,
`_test_credentials`, `invoke_model` and `_handle_client_error`; one
constructor per raise site, carrying the runtime data interpolated into
the message.  `message` is `str(e)` for each. -/

/-- Errors raised as `BedrockClientError` in bedrock_client.py. -/
inductive BedrockError where
  | noCredentials
  | accessDenied (modelId : List Char)
  | awsClientError (code msg : List Char)
  | initFailed (msg : List Char)
  | invalidProfile (profileName : List Char)
  | rateLimit
  | serviceUnavailable
  | invalidRequest (detail : List Char)
  | modelNotFound (modelId : List Char)
  | timeoutError
  | networkError
  | malformedResponse
  | sdkError (msg : List Char)
  | unexpectedInvoke (msg : List Char)
  | emptyModelResponse
  | awsApiError (code msg : List Char)
deriving DecidableEq

/-- The `str(e)` of each `BedrockClientError`, as formatted at its
raise site (messages come from config.py `ERROR_MESSAGES` or inline
f-strings). -/
def BedrockError.message : BedrockError → List Char
  | .noCredentials => "AWS credentials not found.".toList
  | .accessDenied mid =>
      "Access denied to Bedrock model ".toList ++ apos :: mid ++ apos :: ".".toList
  | .awsClientError code msg =>
      "AWS client error (".toList ++ code ++ "): ".toList ++ msg
  | .initFailed msg => "Failed to initialize Bedrock client: ".toList ++ msg
  | .invalidProfile p =>
      "AWS profile ".toList ++ apos :: p ++ apos :: " not found.".toList
  | .rateLimit => "Rate limit exceeded for AWS Bedrock API.".toList
  | .serviceUnavailable => "AWS Bedrock service is currently unavailable.".toList
  | .invalidRequest d => "Invalid request: ".toList ++ d
  | .modelNotFound mid =>
      "Bedrock model ".toList ++ apos :: mid ++ apos :: " not found or not available.".toList
  | .timeoutError => "Request timed out after 10 seconds.".toList
  | .networkError => "Network connection error occurred.".toList
  | .malformedResponse => "Invalid response format from Bedrock API".toList
  | .sdkError msg => "AWS SDK error: ".toList ++ msg
  | .unexpectedInvoke msg => "Unexpected error: ".toList ++ msg
  | .emptyModelResponse => "Model returned empty response".toList
  | .awsApiError code msg =>
      "AWS API error (".toList ++ code ++ "): ".toList ++ msg

/-- Python exceptions that the modelled code can raise. -/
inductive PyExc where
  | valueError (msg : List Char)
  | keyError (key : List Char)
  | typeError
  | attributeError
  | runtimeError (msg : List Char)
  | bedrockClientError (e : BedrockError)
  | otherExc (msg : List Char)
deriving DecidableEq

/-- Python `str(e)` of a modelled exception (the `typeError` /
`attributeError` / `keyError` texts never reach a user-visible string
in the claims below, so they are rendered schematically). -/
def PyExc.message : PyExc → List Char
  | .valueError msg => msg
  | .keyError key => apos :: key ++ [apos]
  | .typeError => "TypeError".toList
  | .attributeError => "AttributeError".toList
  | .runtimeError msg => msg
  | .bedrockClientError e => e.message
  | .otherExc msg => msg

/-! ## models.py -/

/-- models.py `JokeResponse` (dataclass fields, in order). -/
structure JokeResponse where
  joke_id : List Char
  joke_text : List Char
  category : List Char
  success : Bool
  timestamp : PyDatetime
  error_message : Option (List Char) := none
deriving DecidableEq, Repr

/-- models.py `JokeResponse.validate`: the first `ValueError` message
raised, or `none` when validation passes.  The `isinstance` checks of
the source hold by construction in this typed model and are omitted. -/
def JokeResponse.validateE (r : JokeResponse) : Option (List Char) :=
  if r.joke_id.isEmpty then some "joke_id must be a non-empty string".toList
  else if !isValidUUID r.joke_id then some "joke_id must be a valid UUID string".toList
  else if r.category.isEmpty then some "category must be a non-empty string".toList
  else if r.success && (pyStrip r.joke_text).isEmpty then
    some "Successful responses must have non-empty joke_text".toList
  else if !r.success && !pyTruthyStrOpt r.error_message then
    some "Failed responses must have an error_message".toList
  else none

/-- Does a `JokeResponse` pass construction-time validation
(`__post_init__` does not raise)? -/
def JokeResponse.validate (r : JokeResponse) : Bool :=
  r.validateE.isNone

/-- Construct a `JokeResponse`, running `__post_init__` validation:
`ValueError` on failure. -/
def mkJokeResponse (r : JokeResponse) : Except PyExc JokeResponse :=
  match r.validateE with
  | some m => .error (.valueError m)
  | none => .ok r

/-- models.py `JokeResponse.create_success`.  `uuid.uuid4()` and
`datetime.now()` are nondeterministic; the drawn values are passed as
the `uuid` and `now` arguments. -/
def JokeResponse.create_success (uuid : List Char) (now : PyDatetime)
    (joke_text category : List Char) : Except PyExc JokeResponse :=
  mkJokeResponse ⟨uuid, joke_text, category, true, now, none⟩

/-- models.py `JokeResponse.create_error`. -/
def JokeResponse.create_error (uuid : List Char) (now : PyDatetime)
    (error_message category : List Char) : Except PyExc JokeResponse :=
  mkJokeResponse ⟨uuid, [], category, false, now, some error_message⟩

/-- models.py `FeedbackEntry` (dataclass fields, in order). -/
structure FeedbackEntry where
  joke_id : List Char
  joke_text : List Char
  category : List Char
  rating : Int
  timestamp : PyDatetime
  user_comment : Option (List Char) := none
deriving DecidableEq, Repr

/-- models.py `FeedbackEntry.validate`: the first `ValueError` message
raised, or `none` when validation passes. -/
def FeedbackEntry.validateE (e : FeedbackEntry) : Option (List Char) :=
  if e.joke_id.isEmpty then some "joke_id must be a non-empty string".toList
  else if !isValidUUID e.joke_id then some "joke_id must be a valid UUID string".toList
  else if e.category.isEmpty then some "category must be a non-empty string".toList
  else if !(FEEDBACK_RATING_MIN ≤ e.rating && e.rating ≤ FEEDBACK_RATING_MAX) then
    some "rating must be between 1 and 5 (inclusive)".toList
  else none

/-- Construct a `FeedbackEntry`, running `__post_init__` validation
(`FeedbackEntry.create` with the drawn `datetime.now()` passed as
`now`): `ValueError` on failure. -/
def mkFeedbackEntry (joke_id joke_text category : List Char) (rating : Int)
    (now : PyDatetime) (user_comment : Option (List Char)) : Except PyExc FeedbackEntry :=
  let e : FeedbackEntry := ⟨joke_id, joke_text, category, rating, now, user_comment⟩
  match e.validateE with
  | some m => .error (.valueError m)
  | none => .ok e

/-- models.py `BedrockConfig` (floats in hundredths, see
`TEMPERATURE`). -/
structure BedrockConfig where
  model_id : List Char
  max_tokens : Int := 200
  temperature : Int := 70
  top_p : Int := 90
deriving DecidableEq, Repr

/-- models.py `BedrockConfig.validate`: first `ValueError` message or
`none` (bounds 0.0 ≤ x ≤ 1.0 become 0 ≤ x ≤ 100 in hundredths). -/
def BedrockConfig.validateE (c : BedrockConfig) : Option (List Char) :=
  if c.model_id.isEmpty then some "model_id must be a non-empty string".toList
  else if c.max_tokens ≤ 0 then some "max_tokens must be positive".toList
  else if 4000 < c.max_tokens then some "max_tokens must be 4000 or less".toList
  else if !(0 ≤ c.temperature && c.temperature ≤ 100) then
    some "temperature must be between 0.0 and 1.0".toList
  else if !(0 ≤ c.top_p && c.top_p ≤ 100) then
    some "top_p must be between 0.0 and 1.0".toList
  else none

/-- Construct a `BedrockConfig`, running `__post_init__` validation. -/
def mkBedrockConfig (model_id : List Char) (max_tokens temperature top_p : Int) :
    Except PyExc BedrockConfig :=
  let c : BedrockConfig := ⟨model_id, max_tokens, temperature, top_p⟩
  match c.validateE with
  | some m => .error (.valueError m)
  | none => .ok c

/-! ## joke_service.py `_clean_joke_text` -/

/-- joke_service.py `prefixes_to_remove`. -/
def prefixes_to_remove : List (List Char) :=
  ["Here".toList ++ apos :: "s a joke for you:".toList,
   "Here".toList ++ apos :: "s a joke:".toList,
   "Joke:".toList,
   "Here you go:".toList,
   "Sure, here".toList ++ apos :: "s a joke:".toList,
   "Here".toList ++ apos :: "s one:".toList]

/-- joke_service.py `suffixes_to_remove`. -/
def suffixes_to_remove : List (List Char) :=
  ["Hope you enjoyed it!".toList,
   "Hope that made you smile!".toList,
   "I hope you found that funny!".toList,
   "Did you like it?".toList]

/-- Case-insensitive `cleaned.lower().startswith(prefix.lower())`. -/
def matchesPrefix (p cleaned : List Char) : Bool :=
  (lowerList p).isPrefixOf (lowerList cleaned)

/-- Case-insensitive `cleaned.lower().endswith(suffix.lower())`. -/
def matchesSuffix (sfx cleaned : List Char) : Bool :=
  (lowerList sfx).isSuffixOf (lowerList cleaned)

/-- The prefix loop of `_clean_joke_text`: strip the first matching
prefix in list order (then re-strip), at most one removal (`break`). -/
def stripKnownPrefix : List (List Char) → List Char → List Char
  | [], cleaned => cleaned
  | p :: ps, cleaned =>
    if matchesPrefix p cleaned then pyStrip (cleaned.drop p.length)
    else stripKnownPrefix ps cleaned

/-- The suffix loop of `_clean_joke_text`: strip the first matching
suffix in list order (`cleaned[:-len(suffix)]`, then re-strip), at most
one removal. -/
def stripKnownSuffix : List (List Char) → List Char → List Char
  | [], cleaned => cleaned
  | s :: ss, cleaned =>
    if matchesSuffix s cleaned then pyStrip (cleaned.take (cleaned.length - s.length))
    else stripKnownSuffix ss cleaned

/-- The line-normalisation step of `_clean_joke_text`:
`'\n'.join(line.strip() for line in cleaned.split('\n') if line.strip())`. -/
def normalizeLines (s : List Char) : List Char :=
  joinNl (((splitNl s).map pyStrip).filter (fun l => !l.isEmpty))

/-- joke_service.py `JokeService._clean_joke_text` (the spec's
`TextNormalizer.clean`). -/
def clean_joke_text (joke_text : List Char) : List Char :=
  normalizeLines
    (stripKnownSuffix suffixes_to_remove
      (stripKnownPrefix prefixes_to_remove (pyStrip joke_text)))

/-- Does any listed prefix match (case-insensitively)? -/
def hasKnownPrefix (s : List Char) : Bool :=
  prefixes_to_remove.any (fun p => matchesPrefix p s)

/-- Does any listed suffix match (case-insensitively)? -/
def hasKnownSuffix (s : List Char) : Bool :=
  suffixes_to_remove.any (fun q => matchesSuffix q s)

/-! ## feedback_storage.py — the JSON document model

The storage file holds one JSON document.  JSON values are modelled by
`JValue`; floats by exact integer hundredths (every float this program
writes is produced by `round(x, 2)` or is the constant `0.0`).  A
parsed JSON object has unique keys (Python `dict`), so field lists are
treated as duplicate-free. -/

/-- A parsed JSON value. -/
inductive JValue where
  | null
  | bool (b : Bool)
  | int (n : Int)
  | flt (hundredths : Int)
  | str (s : List Char)
  | arr (elems : List JValue)
  | obj (fields : List (List Char × JValue))

/-- Field lookup in a parsed JSON object / Python dict. -/
def lookupField : List (List Char × JValue) → List Char → Option JValue
  | [], _ => none
  | (k0, v) :: rest, k => if k0 = k then some v else lookupField rest k

/-- Python `d[k] = x` on a dict: replace in place, or append a new
key. -/
def setField : List (List Char × JValue) → List Char → JValue → List (List Char × JValue)
  | [], k, x => [(k, x)]
  | (k0, v0) :: rest, k, x =>
    if k0 = k then (k0, x) :: rest else (k0, v0) :: setField rest k x

/-- Python `v[k]` for a string key: `KeyError` when the key is absent,
`TypeError` when `v` is not a dict. -/
def subscript (v : JValue) (k : List Char) : Except PyExc JValue :=
  match v with
  | .obj fields =>
    match lookupField fields k with
    | some x => .ok x
    | none => .error (.keyError k)
  | _ => .error .typeError

/-- Python `v[k] = x` for a dict `v` (the only shape it is applied to
in this code base; other shapes are returned unchanged and never
arise). -/
def setItem (v : JValue) (k : List Char) (x : JValue) : JValue :=
  match v with
  | .obj fields => .obj (setField fields k x)
  | other => other

/-- Storage-document key `feedback_entries`. -/
def kFeedbackEntries : List Char := "feedback_entries".toList

/-- Storage-document key `stats`. -/
def kStats : List Char := "stats".toList

/-- Stats key `total_jokes`. -/
def kTotalJokes : List Char := "total_jokes".toList

/-- Stats key `average_rating`. -/
def kAverageRating : List Char := "average_rating".toList

/-- Stats key `category_stats`. -/
def kCategoryStats : List Char := "category_stats".toList

/-- Per-category stats key `count`. -/
def kCount : List Char := "count".toList

/-- Per-category stats key `avg_rating`. -/
def kAvgRating : List Char := "avg_rating".toList

/-- Entry key `joke_id`. -/
def kJokeId : List Char := "joke_id".toList

/-- Entry key `joke_text`. -/
def kJokeText : List Char := "joke_text".toList

/-- Entry key `category`. -/
def kCategory : List Char := "category".toList

/-- Entry key `rating`. -/
def kRating : List Char := "rating".toList

/-- Entry key `timestamp`. -/
def kTimestamp : List Char := "timestamp".toList

/-- Entry key `user_comment`. -/
def kUserComment : List Char := "user_comment".toList

/-- The empty statistics object
`{"total_jokes": 0, "average_rating": 0.0, "category_stats": {}}`. -/
def emptyStats : JValue :=
  .obj [(kTotalJokes, .int 0), (kAverageRating, .flt 0), (kCategoryStats, .obj [])]

/-- The empty storage document, as returned by `_load_feedback_data`
for a missing or unreadable file. -/
def emptyDoc : JValue :=
  .obj [(kFeedbackEntries, .arr []), (kStats, emptyStats)]

/-- The observable state of the storage file: absent, holding content
that `json.load` parses to a value, or holding content that `json.load`
rejects (`JSONDecodeError`).  The `unparseable` constructor stands for
any such byte content. -/
inductive FileState where
  | missing
  | unparseable
  | json (v : JValue)

/-- The outcome of one whole-file write (`open(path, 'w')` followed by
`json.dump`): success; failure to open (the prior content is
untouched); or an `IOError` once writing has begun — mode `'w'`
truncates on open and `json.dump` streams, so the file is then left
holding a proper prefix of the document, which is not valid JSON. -/
inductive WriteOutcome where
  | ok
  | failOpen (ioMsg : List Char)
  | failPartial (ioMsg : List Char)

/-- feedback_storage.py `FeedbackStorage._load_feedback_data`: a
missing file and a file whose content raises `JSONDecodeError` (or
`IOError`) both yield the empty document; otherwise the parsed
value — whatever its shape — is returned as-is. -/
def load_feedback_data : FileState → JValue
  | .missing => emptyDoc
  | .unparseable => emptyDoc
  | .json v => v

/-- Round-to-nearest with ties to even of `num / den` (`den > 0`),
Python `round(x)` on an exact value.  (CPython rounds the *binary
float* nearest `x`, which can differ on decimal ties such as 3.675;
every comparison below applies the same rounding on both sides, so no
claim's truth is affected.) -/
def roundHalfEvenDiv (num den : Int) : Int :=
  let q := num.ediv den
  let r := num.emod den
  if 2 * r < den then q
  else if den < 2 * r then q + 1
  else if q.emod 2 = 0 then q else q + 1

/-- Python `round(num / den, 2)` as integer hundredths. -/
def roundTo2Hundredths (num den : Int) : Int :=
  roundHalfEvenDiv (100 * num) den

/-- feedback_storage.py `_feedback_entry_to_dict`: `asdict(entry)` in
field order, with the timestamp replaced by its ISO string. -/
def feedback_entry_to_dict (e : FeedbackEntry) : JValue :=
  .obj [(kJokeId, .str e.joke_id),
        (kJokeText, .str e.joke_text),
        (kCategory, .str e.category),
        (kRating, .int e.rating),
        (kTimestamp, .str e.timestamp.isoformat),
        (kUserComment, match e.user_comment with | none => .null | some c => .str c)]

/-- The keyword names accepted by `FeedbackEntry(**entry_dict)`. -/
def entryKeys : List (List Char) :=
  [kJokeId, kJokeText, kCategory, kRating, kTimestamp, kUserComment]

/-- The `user_comment` field of an entry dict: absent or `null` give
`None`; a string gives the string; any other type makes the later
`FeedbackEntry` validation raise (so the entry is skipped). -/
def commentFromField : Option JValue → Option (Option (List Char))
  | none => some none
  | some .null => some none
  | some (.str c) => some (some c)
  | some _ => none

/-- Field `k` of an entry dict when it is present and a string. -/
def asStrField (fields : List (List Char × JValue)) (k : List Char) : Option (List Char) :=
  match lookupField fields k with
  | some (.str s) => some s
  | _ => none

/-- Field `k` of an entry dict when it is present and an integer. -/
def asIntField (fields : List (List Char × JValue)) (k : List Char) : Option Int :=
  match lookupField fields k with
  | some (.int n) => some n
  | _ => none

/-- feedback_storage.py `_dict_to_feedback_entry` as used inside
`get_all_feedback`'s per-entry `try`: `none` means one of
`KeyError` / `ValueError` / `TypeError` was raised (non-dict value,
unexpected or missing keyword, wrongly typed field, unparseable
timestamp, or failed `FeedbackEntry` validation) and the entry is
skipped. -/
def dict_to_feedback_entry (v : JValue) : Option FeedbackEntry :=
  match v with
  | .obj fields =>
    if (fields.map Prod.fst).all (fun k => entryKeys.contains k) then
      match asStrField fields kJokeId, asStrField fields kJokeText,
            asStrField fields kCategory, asIntField fields kRating,
            asStrField fields kTimestamp with
      | some jid, some jtext, some cat, some r, some ts =>
        match pyFromisoformat ts with
        | none => none
        | some dt =>
          match commentFromField (lookupField fields kUserComment) with
          | none => none
          | some comment =>
            let e : FeedbackEntry := ⟨jid, jtext, cat, r, dt, comment⟩
            if e.validateE.isNone then some e else none
      | _, _, _, _, _ => none
    else none
  | _ => none

/-- `entry["rating"]` as used by `_update_statistics` (this program
only ever stores integer ratings; a non-integer value would make the
Python arithmetic raise or produce a float, neither of which the store
ever writes). -/
def getRatingJ (entry : JValue) : Except PyExc Int :=
  match entry with
  | .obj fields =>
    match lookupField fields kRating with
    | some (.int n) => .ok n
    | some _ => .error .typeError
    | none => .error (.keyError kRating)
  | _ => .error .typeError

/-- `entry["category"]` as used by `_update_statistics` (this program
only ever stores string categories). -/
def getCategoryJ (entry : JValue) : Except PyExc (List Char) :=
  match entry with
  | .obj fields =>
    match lookupField fields kCategory with
    | some (.str c) => .ok c
    | some _ => .error .typeError
    | none => .error (.keyError kCategory)
  | _ => .error .typeError

/-- `sum(entry["rating"] for entry in entries)`. -/
def sumRatings : List JValue → Except PyExc Int
  | [] => .ok 0
  | e :: es => do
    let r ← getRatingJ e
    let s ← sumRatings es
    .ok (r + s)

/-- One step of the category loop of `_update_statistics`: bump
`category_counts[category]` and `category_ratings[category]` (the two
parallel dicts, with identical key insertion order, are modelled as one
association list of count and rating-sum). -/
def bumpCategory : List (List Char × Nat × Int) → List Char → Int → List (List Char × Nat × Int)
  | [], c, r => [(c, 1, r)]
  | (c0, n0, s0) :: rest, c, r =>
    if c0 = c then (c0, n0 + 1, s0 + r) :: rest
    else (c0, n0, s0) :: bumpCategory rest c r

/-- The category loop of `_update_statistics` over the entries. -/
def categoryFoldAux (acc : List (List Char × Nat × Int)) :
    List JValue → Except PyExc (List (List Char × Nat × Int))
  | [] => .ok acc
  | e :: es => do
    let c ← getCategoryJ e
    let r ← getRatingJ e
    categoryFoldAux (bumpCategory acc c r) es

/-- The `category_stats` object built by `_update_statistics`:
`{category: {"count": n, "avg_rating": round(sum/n, 2)}}` in first
insertion order. -/
def categoryStatsObj (cats : List (List Char × Nat × Int)) : JValue :=
  .obj (cats.map (fun p =>
    (p.1, JValue.obj [(kCount, .int p.2.1),
                      (kAvgRating, .flt (roundTo2Hundredths p.2.2 p.2.1))])))

/-- The statistics value `_update_statistics` computes from an entries
list: the empty statistics when the list is empty, otherwise total
count, `round(total_rating / total_jokes, 2)` and the per-category
breakdown. -/
def statsFor (es : List JValue) : Except PyExc JValue :=
  if es.isEmpty then .ok emptyStats
  else do
    let total ← sumRatings es
    let cats ← categoryFoldAux [] es
    .ok (.obj [(kTotalJokes, .int es.length),
               (kAverageRating, .flt (roundTo2Hundredths total es.length)),
               (kCategoryStats, categoryStatsObj cats)])

/-- feedback_storage.py `_update_statistics`: recompute `data["stats"]`
from `data["feedback_entries"]`.  Its only caller (`save_feedback`)
invokes it right after storing a list under that key, so the key is
present and holds a list. -/
def update_statisticsE (data : JValue) : Except PyExc JValue :=
  match subscript data kFeedbackEntries with
  | .error e => .error e
  | .ok (.arr es) =>
    match statsFor es with
    | .error e => .error e
    | .ok stats => .ok (setItem data kStats stats)
  | .ok _ => .error .typeError

/-- feedback_storage.py `FeedbackStorage.save_feedback`: load the
document, append the entry dict to `data["feedback_entries"]`, refresh
`data["stats"]`, write the whole document back.  A write failure raises
`RuntimeError` (from `_save_feedback_data`); the resulting file state
depends on where the write failed (see `WriteOutcome`).  A `.append`
on a non-list raises `AttributeError`. -/
def save_feedback (st : FileState) (fb : FeedbackEntry) (w : WriteOutcome) :
    FileState × Except PyExc Unit :=
  let data := load_feedback_data st
  match subscript data kFeedbackEntries with
  | .error e => (st, .error e)
  | .ok (.arr es) =>
    let data1 := setItem data kFeedbackEntries (.arr (es ++ [feedback_entry_to_dict fb]))
    match update_statisticsE data1 with
    | .error e => (st, .error e)
    | .ok data2 =>
      match w with
      | .ok => (.json data2, .ok ())
      | .failOpen m =>
        (st, .error (.runtimeError ("Failed to save feedback data: ".toList ++ m)))
      | .failPartial m =>
        (.unparseable, .error (.runtimeError ("Failed to save feedback data: ".toList ++ m)))
  | .ok _ => (st, .error .attributeError)

/-- feedback_storage.py `FeedbackStorage.get_feedback_stats`:
`_load_feedback_data()["stats"]`. -/
def get_feedback_stats (st : FileState) : Except PyExc JValue :=
  subscript (load_feedback_data st) kStats

/-- feedback_storage.py `FeedbackStorage.get_all_feedback`: iterate
`data["feedback_entries"]`, converting each element and skipping any
that raises `KeyError` / `ValueError` / `TypeError`.  Iterating a
string or a dict yields one-character strings or keys, every one of
which is skipped; iterating a non-iterable raises `TypeError`. -/
def get_all_feedback (st : FileState) : Except PyExc (List FeedbackEntry) :=
  match subscript (load_feedback_data st) kFeedbackEntries with
  | .error e => .error e
  | .ok (.arr es) => .ok (es.filterMap dict_to_feedback_entry)
  | .ok (.str _) => .ok []
  | .ok (.obj _) => .ok []
  | .ok _ => .error .typeError

/-- feedback_storage.py `FeedbackStorage.clear_all_feedback`: write the
empty document over the file. -/
def clear_all_feedback (st : FileState) (w : WriteOutcome) :
    FileState × Except PyExc Unit :=
  match w with
  | .ok => (.json emptyDoc, .ok ())
  | .failOpen m =>
    (st, .error (.runtimeError ("Failed to save feedback data: ".toList ++ m)))
  | .failPartial m =>
    (.unparseable, .error (.runtimeError ("Failed to save feedback data: ".toList ++ m)))

/-- Append a sequence of entries with `save_feedback`, every write
succeeding. -/
def saveAll (st : FileState) (fs : List FeedbackEntry) : FileState :=
  fs.foldl (fun s fb => (save_feedback s fb .ok).1) st

/-! ## joke_service.py — the service layer -/

/-- The outcome of the gateway interaction inside `generate_joke`'s
`try` block (`_get_bedrock_client` + `client.invoke_model`): the
returned text, a raised `BedrockClientError` (every message such an
error can carry is listed in `BedrockError`), or any other exception
raised unexpectedly during the invocation. -/
inductive GatewayOutcome where
  | ok (text : List Char)
  | bedrockError (e : BedrockError)
  | unexpectedExc (msg : List Char)

/-- The body of `generate_joke`'s `try` block after the category has
been resolved to `cat`: default the model id, look up the prompt, build
the `BedrockConfig`, invoke the model, clean the text, and build the
response.  The second component counts `client.invoke_model` calls
(0 or 1). -/
def runGeneration (uuid : List Char) (now : PyDatetime) (cat : List Char)
    (model_id : Option (List Char)) (outcome : GatewayOutcome) :
    Except PyExc JokeResponse × Nat :=
  let mid := model_id.getD DEFAULT_MODEL_ID
  match get_joke_promptE cat with
  | .error m => (.error (.valueError m), 0)
  | .ok _prompt =>
    match mkBedrockConfig mid (MAX_TOKENS : Int) TEMPERATURE TOP_P with
    | .error e => (.error e, 0)
    | .ok _config =>
      match outcome with
      | .ok text =>
        let cleaned := clean_joke_text text
        (if (pyStrip cleaned).isEmpty then
           JokeResponse.create_error uuid now emptyResponseMessage cat
         else
           JokeResponse.create_success uuid now cleaned cat, 1)
      | .bedrockError e => (.error (.bedrockClientError e), 1)
      | .unexpectedExc m => (.error (.otherExc m), 1)

/-- The `except` clauses of `generate_joke`: a raised
`BedrockClientError` or any other exception is turned into an error
response built from `str(e)` and `category or "unknown"` (with
`category` holding the resolved value).  If that `JokeResponse`
construction itself raises (it validates), the exception propagates
out of the handler. -/
def generationHandler (uuid : List Char) (now : PyDatetime) (resolved : List Char) :
    Except PyExc JokeResponse → Except PyExc JokeResponse
  | .ok r => .ok r
  | .error (.bedrockClientError e) =>
    JokeResponse.create_error uuid now e.message (pyOrStr resolved "unknown".toList)
  | .error e =>
    JokeResponse.create_error uuid now ("Unexpected error: ".toList ++ e.message)
      (pyOrStr resolved "unknown".toList)

/-- The `try` block of `generate_joke`: resolve the category (the
random draw when `None`, the invalid-category error response when not
in the valid set) and run the generation. -/
def generate_jokeTry (uuid : List Char) (now : PyDatetime)
    (category : Option (List Char)) (randomCat : List Char)
    (model_id : Option (List Char)) (outcome : GatewayOutcome) :
    Except PyExc JokeResponse × Nat :=
  match category with
  | none => runGeneration uuid now randomCat model_id outcome
  | some c =>
    if validate_category c then runGeneration uuid now c model_id outcome
    else (JokeResponse.create_error uuid now (invalidCategoryMessage c) c, 0)

/-- joke_service.py `JokeService.generate_joke`, with its invoke-call
count.  `uuid` and `now` stand for the `uuid.uuid4()` / `datetime.now()`
draws, `randomCat` for the `get_random_category()` draw (used when
`category` is `None`). -/
def generate_jokeAux (uuid : List Char) (now : PyDatetime)
    (category : Option (List Char)) (randomCat : List Char)
    (model_id : Option (List Char)) (outcome : GatewayOutcome) :
    Except PyExc JokeResponse × Nat :=
  let resolved : List Char := match category with | none => randomCat | some c => c
  let body := generate_jokeTry uuid now category randomCat model_id outcome
  (generationHandler uuid now resolved body.1, body.2)

/-- joke_service.py `JokeService.generate_joke` (result only). -/
def generate_joke (uuid : List Char) (now : PyDatetime)
    (category : Option (List Char)) (randomCat : List Char)
    (model_id : Option (List Char)) (outcome : GatewayOutcome) :
    Except PyExc JokeResponse :=
  (generate_jokeAux uuid now category randomCat model_id outcome).1

/-- Number of `client.invoke_model` calls one `generate_joke` call
issues. -/
def generate_joke_invoke_count (uuid : List Char) (now : PyDatetime)
    (category : Option (List Char)) (randomCat : List Char)
    (model_id : Option (List Char)) (outcome : GatewayOutcome) : Nat :=
  (generate_jokeAux uuid now category randomCat model_id outcome).2

/-- joke_service.py `JokeService.collect_user_feedback`: `False` for a
failed response; build a `FeedbackEntry` (which validates) and save it;
any exception — from validation or from the save — is caught and turns
into `False`.  The resulting storage state is threaded through. -/
def collect_user_feedback (st : FileState) (joke_response : JokeResponse)
    (rating : Int) (user_comment : Option (List Char)) (now : PyDatetime)
    (w : WriteOutcome) : FileState × Bool :=
  if !joke_response.success then (st, false)
  else
    match mkFeedbackEntry joke_response.joke_id joke_response.joke_text
        joke_response.category rating now user_comment with
    | .error _ => (st, false)
    | .ok fb =>
      match save_feedback st fb w with
      | (st', .ok _) => (st', true)
      | (st', .error _) => (st', false)

/-! ## bedrock_client.py — the botocore client configuration -/

/-- The `retries` entry of the botocore `Config` built in
`_get_client`. -/
structure BotoRetryConfig where
  max_attempts : Nat
  mode : List Char
deriving DecidableEq

/-- The botocore `Config` built in `_get_client`. -/
structure BotoClientConfig where
  region_name : List Char
  retries : BotoRetryConfig
  read_timeout : Nat
  connect_timeout : Nat
deriving DecidableEq

/-- config.py `DEFAULT_AWS_REGION`. -/
def DEFAULT_AWS_REGION : List Char := "us-east-1".toList

/-- bedrock_client.py `_get_client`: the `Config` passed to
`session.client('bedrock-runtime', config=...)` —
`retries={'max_attempts': MAX_RETRIES, 'mode': 'adaptive'}` with the
fixed timeouts. -/
def bedrockClientBotoConfig (region : List Char) : BotoClientConfig :=
  ⟨region, ⟨MAX_RETRIES, "adaptive".toList⟩, API_TIMEOUT_SECONDS, API_TIMEOUT_SECONDS⟩

/-- Modelled from the spec: the spec treats the AWS transport as an
opaque external capability, so botocore's documented retry semantics
for a client configured with `retries={'max_attempts': m, ...}` is
taken as the boundary: one SDK call makes transport attempts until one
succeeds or `max_attempts` attempts have been made, so a call that hits
`n` consecutive retryable failures makes `min (n + 1) m` transport
attempts. -/
def sdkTransportAttempts (cfg : BotoRetryConfig) (retryableFailures : Nat) : Nat :=
  min (retryableFailures + 1) cfg.max_attempts

/-! ## Definitions used by the statements of the claims -/

/-- Leading-character test: the head, if any, is not Python
whitespace. -/
def noLeadSpace : List Char → Bool
  | [] => true
  | c :: _ => !isPySpace c

/-- Substring test (`needle in hay` for Python strings). -/
def containsSubstring (needle : List Char) : List Char → Bool
  | [] => needle.isEmpty
  | c :: t => needle.isPrefixOf (c :: t) || containsSubstring needle t

/-- The generation-domain failure circumstances of one `generate_joke`
call: the gateway raised (a `BedrockClientError` or anything else), or
the requested category is invalid. -/
def generationErrorCase (category : Option (List Char)) (outcome : GatewayOutcome) : Prop :=
  (∃ e, outcome = .bedrockError e) ∨ (∃ m, outcome = .unexpectedExc m) ∨
  (∃ c, category = some c ∧ validate_category c = false)

/-- A `FeedbackEntry` as the running program actually constructs one:
it passed `__post_init__` validation and its timestamp came from
`datetime.now()` (so it is a valid calendar datetime). -/
def WFEntry (f : FeedbackEntry) : Prop :=
  f.validateE = none ∧ f.timestamp.valid = true

/-- The category loop of `_update_statistics`, recomputed over typed
entries (used to state that the stored statistics agree with the
aggregate of `get_all_feedback`'s result). -/
def catFoldEntries (acc : List (List Char × Nat × Int)) :
    List FeedbackEntry → List (List Char × Nat × Int)
  | [] => acc
  | f :: fs => catFoldEntries (bumpCategory acc f.category f.rating) fs

/-- The statistics object recomputed from a typed entry list by the
same algorithm as `_update_statistics`. -/
def aggregateOfEntries (fs : List FeedbackEntry) : JValue :=
  if fs.isEmpty then emptyStats
  else
    .obj [(kTotalJokes, .int fs.length),
          (kAverageRating, .flt (roundTo2Hundredths ((fs.map FeedbackEntry.rating).sum) fs.length)),
          (kCategoryStats, categoryStatsObj (catFoldEntries [] fs))]

/-- A well-formed storage document: the canonical two-field shape the
store itself writes, every entry convertible back to a `FeedbackEntry`,
and the stored statistics equal to the recomputation from the entry
list. -/
def DocWF (v : JValue) : Prop :=
  ∃ es stats, v = .obj [(kFeedbackEntries, .arr es), (kStats, stats)] ∧
    (∀ d ∈ es, (dict_to_feedback_entry d).isSome) ∧ statsFor es = .ok stats

/-- The store's state invariant: a missing or unreadable file loads as
the (consistent) empty document; a parseable file written by the store
is a well-formed document. -/
def StateInv : FileState → Prop
  | .missing => True
  | .unparseable => True
  | .json v => DocWF v

/-- Entry list under `feedback_entries` of the loaded document. -/
def HasEntries (st : FileState) (es : List JValue) : Prop :=
  subscript (load_feedback_data st) kFeedbackEntries = .ok (.arr es)

/-- A sample UUID string in the canonical form `uuid.uuid4()`
produces. -/
def uuidSample : List Char := "12345678-1234-5678-1234-567812345678".toList

/-- A sample `datetime.now()` value. -/
def dtSample : PyDatetime := ⟨2024, 3, 7, 9, 5, 30, 0⟩

/-- A sample valid feedback entry. -/
def fbSample : FeedbackEntry := ⟨uuidSample, "ha".toList, "puns".toList, 4, dtSample, none⟩

/-- A second sample valid feedback entry, with a comment and a
fractional-second timestamp. -/
def fbSample2 : FeedbackEntry :=
  ⟨uuidSample, "ho ho".toList, "general".toList, 5, ⟨2024, 3, 7, 9, 6, 2, 123⟩,
    some "nice".toList⟩

/-! # Lemmas about `pyStrip`, `splitNl` and `joinNl` -/

theorem noLeadSpace_dropWhile (l : List Char) :
    noLeadSpace (l.dropWhile isPySpace) = true := by
  induction l with
  | nil => rfl
  | cons c cs ih =>
    by_cases h : isPySpace c
    · simpa [List.dropWhile_cons, h] using ih
    · simp [List.dropWhile_cons, h, noLeadSpace]

theorem dropWhile_eq_self_of_noLead {l : List Char} (h : noLeadSpace l = true) :
    l.dropWhile isPySpace = l := by
  cases l with
  | nil => rfl
  | cons c cs =>
    simp only [noLeadSpace, Bool.not_eq_true'] at h
    simp [List.dropWhile_cons, h]

theorem noLeadSpace_dropTrail {l : List Char} (h : noLeadSpace l = true) :
    noLeadSpace (dropTrail l) = true := by
  cases l with
  | nil => rfl
  | cons c cs =>
    simp only [dropTrail]
    split
    · rfl
    · simpa [noLeadSpace] using h

theorem dropTrail_idem (l : List Char) : dropTrail (dropTrail l) = dropTrail l := by
  induction l with
  | nil => rfl
  | cons c cs ih =>
    by_cases hc : ((dropTrail cs).isEmpty && isPySpace c) = true
    · simp [dropTrail, hc]
    · rw [Bool.not_eq_true] at hc
      simp only [dropTrail, hc, if_neg, Bool.false_eq_true, if_false]
      simp [dropTrail, ih, hc]

theorem noLeadSpace_pyStrip (l : List Char) : noLeadSpace (pyStrip l) = true :=
  noLeadSpace_dropTrail (noLeadSpace_dropWhile l)

theorem pyStrip_idem (l : List Char) : pyStrip (pyStrip l) = pyStrip l := by
  unfold pyStrip
  rw [dropWhile_eq_self_of_noLead (noLeadSpace_dropTrail (noLeadSpace_dropWhile l)),
    dropTrail_idem]

theorem pyStrip_eq_self {l : List Char} (h1 : noLeadSpace l = true)
    (h2 : dropTrail l = l) : pyStrip l = l := by
  unfold pyStrip
  rw [dropWhile_eq_self_of_noLead h1, h2]

theorem dropTrail_cons (c : Char) (cs : List Char) :
    dropTrail (c :: cs) =
      if (dropTrail cs).isEmpty && isPySpace c then [] else c :: dropTrail cs := rfl

theorem map_self_of_fix {α : Type} {f : α → α} :
    ∀ {l : List α}, (∀ a ∈ l, f a = a) → l.map f = l := by
  intro l
  induction l with
  | nil => intro _; rfl
  | cons a l ih =>
    intro h
    rw [List.map_cons, h a (List.mem_cons_self a l),
      ih (fun b hb => h b (List.mem_cons_of_mem _ hb))]

theorem filter_self_of_true {α : Type} {p : α → Bool} :
    ∀ {l : List α}, (∀ a ∈ l, p a = true) → l.filter p = l := by
  intro l
  induction l with
  | nil => intro _; rfl
  | cons a l ih =>
    intro h
    rw [List.filter_cons, if_pos (h a (List.mem_cons_self a l)),
      ih (fun b hb => h b (List.mem_cons_of_mem _ hb))]

theorem dropTrail_append (xs ys : List Char) :
    dropTrail (xs ++ ys) =
      if (dropTrail ys).isEmpty then dropTrail xs else xs ++ dropTrail ys := by
  induction xs with
  | nil =>
    by_cases h : (dropTrail ys).isEmpty
    · rw [List.nil_append, if_pos h, List.isEmpty_iff.mp h]; rfl
    · rw [List.nil_append, if_neg h, List.nil_append]
  | cons c xs ih =>
    by_cases h : (dropTrail ys).isEmpty
    · rw [List.cons_append, dropTrail_cons, ih, if_pos h, if_pos h, dropTrail_cons]
    · have hne : dropTrail ys ≠ [] := fun e => h (by simp [e])
      have hE : (xs ++ dropTrail ys).isEmpty = false := by
        rw [Bool.eq_false_iff]
        intro he
        exact hne (List.append_eq_nil.mp (List.isEmpty_iff.mp he)).2
      rw [List.cons_append, dropTrail_cons, ih, if_neg h, if_neg h, hE]
      simp

theorem joinNl_ne_nil {ls : List (List Char)} (h : ∀ l ∈ ls, l ≠ []) (hne : ls ≠ []) :
    joinNl ls ≠ [] := by
  match ls with
  | [] => exact absurd rfl hne
  | [l] => exact h l (List.mem_singleton_self l)
  | l :: l' :: ls' =>
    have hl := h l (List.mem_cons_self l _)
    simp only [joinNl]
    intro e
    rcases List.append_eq_nil.mp e with ⟨_, e2⟩
    exact List.cons_ne_nil _ _ e2

theorem dropTrail_joinNl {ls : List (List Char)}
    (h : ∀ l ∈ ls, l ≠ [] ∧ dropTrail l = l) : dropTrail (joinNl ls) = joinNl ls := by
  induction ls with
  | nil => rfl
  | cons l ls ih =>
    match ls, ih with
    | [], _ => exact (h l (List.mem_cons_self l _)).2
    | l' :: ls', ih =>
      have htail : ∀ a ∈ l' :: ls', a ≠ [] ∧ dropTrail a = a := fun a ha =>
        h a (List.mem_cons_of_mem _ ha)
      have hJ : dropTrail (joinNl (l' :: ls')) = joinNl (l' :: ls') := ih htail
      have hJne : joinNl (l' :: ls') ≠ [] :=
        joinNl_ne_nil (fun a ha => (htail a ha).1) (List.cons_ne_nil _ _)
      show dropTrail (l ++ '\n' :: joinNl (l' :: ls')) = _
      rw [dropTrail_append]
      have hd : dropTrail ('\n' :: joinNl (l' :: ls')) = '\n' :: joinNl (l' :: ls') := by
        simp only [dropTrail, hJ]
        have : (joinNl (l' :: ls')).isEmpty = false := by simp [List.isEmpty_iff, hJne]
        simp [this]
      rw [hd]
      have : ('\n' :: joinNl (l' :: ls')).isEmpty = false := by simp
      rw [this, if_neg (by simp)]
      rfl

theorem noLeadSpace_joinNl {ls : List (List Char)}
    (h : ∀ l ∈ ls, l ≠ [] ∧ noLeadSpace l = true) : noLeadSpace (joinNl ls) = true := by
  match ls with
  | [] => rfl
  | [l] => exact (h l (List.mem_singleton_self l)).2
  | l :: l' :: ls' =>
    obtain ⟨hne, hgood⟩ := h l (List.mem_cons_self l _)
    match l, hne with
    | c :: cs, _ =>
      simpa [joinNl, noLeadSpace] using hgood

theorem splitNl_ne_nil (s : List Char) : splitNl s ≠ [] := by
  induction s with
  | nil => simp [splitNl]
  | cons c cs ih =>
    simp only [splitNl]
    split
    · simp
    · split
      · simp
      · simp

theorem nl_not_mem_splitNl {s : List Char} {piece : List Char}
    (hp : piece ∈ splitNl s) : '\n' ∉ piece := by
  induction s generalizing piece with
  | nil =>
    simp only [splitNl, List.mem_singleton] at hp
    subst hp; simp
  | cons c cs ih =>
    simp only [splitNl] at hp
    by_cases hc : c = '\n'
    · rw [if_pos hc] at hp
      rcases List.mem_cons.mp hp with rfl | hp2
      · simp
      · exact ih hp2
    · rw [if_neg hc] at hp
      cases hsp : splitNl cs with
      | nil => exact absurd hsp (splitNl_ne_nil cs)
      | cons l ls =>
        rw [hsp] at hp
        rcases List.mem_cons.mp hp with rfl | hp2
        · have hl : '\n' ∉ l := ih (by rw [hsp]; exact List.mem_cons_self _ _)
          intro hm
          rcases List.mem_cons.mp hm with e | hm2
          · exact hc e.symm
          · exact hl hm2
        · exact ih (by rw [hsp]; exact List.mem_cons_of_mem _ hp2)

theorem splitNl_cons (c : Char) (cs : List Char) :
    splitNl (c :: cs) =
      if c = '\n' then [] :: splitNl cs
      else
        match splitNl cs with
        | [] => [[c]]
        | l :: ls => (c :: l) :: ls := rfl

theorem splitNl_append_nl {l : List Char} (h : '\n' ∉ l) (t : List Char) :
    splitNl (l ++ '\n' :: t) = l :: splitNl t := by
  induction l with
  | nil => simp [splitNl]
  | cons c cs ih =>
    have hc : ¬(c = '\n') := fun e => h (e ▸ List.mem_cons_self c cs)
    have h' : '\n' ∉ cs := fun m => h (List.mem_cons_of_mem _ m)
    rw [List.cons_append, splitNl_cons, if_neg hc, ih h']

theorem splitNl_of_no_nl {l : List Char} (h : '\n' ∉ l) : splitNl l = [l] := by
  induction l with
  | nil => rfl
  | cons c cs ih =>
    have hc : ¬(c = '\n') := fun e => h (e ▸ List.mem_cons_self c cs)
    have h' : '\n' ∉ cs := fun m => h (List.mem_cons_of_mem _ m)
    rw [splitNl_cons, if_neg hc, ih h']

theorem splitNl_joinNl {ls : List (List Char)} (hne : ls ≠ [])
    (h : ∀ l ∈ ls, '\n' ∉ l) : splitNl (joinNl ls) = ls := by
  induction ls with
  | nil => exact absurd rfl hne
  | cons l ls ih =>
    match ls, ih with
    | [], _ => exact splitNl_of_no_nl (h l (List.mem_singleton_self l))
    | l' :: ls', ih =>
      show splitNl (l ++ '\n' :: joinNl (l' :: ls')) = _
      rw [splitNl_append_nl (h l (List.mem_cons_self l _)),
        ih (List.cons_ne_nil _ _) (fun a ha => h a (List.mem_cons_of_mem _ ha))]

theorem mem_of_mem_dropTrail {x : Char} {l : List Char} (h : x ∈ dropTrail l) :
    x ∈ l := by
  induction l with
  | nil => exact absurd h (by simp [dropTrail])
  | cons c cs ih =>
    simp only [dropTrail] at h
    split at h
    · cases h
    · rcases List.mem_cons.mp h with rfl | h2
      · exact List.mem_cons_self _ _
      · exact List.mem_cons_of_mem _ (ih h2)

theorem mem_of_mem_pyStrip {x : Char} {l : List Char} (h : x ∈ pyStrip l) : x ∈ l :=
  (List.dropWhile_sublist isPySpace).subset (mem_of_mem_dropTrail h)

theorem procLine_facts {s : List Char} {e : List Char}
    (he : e ∈ ((splitNl s).map pyStrip).filter (fun l => !l.isEmpty)) :
    e ≠ [] ∧ pyStrip e = e ∧ '\n' ∉ e := by
  obtain ⟨hmem, hkeep⟩ := List.mem_filter.mp he
  obtain ⟨m, hm, rfl⟩ := List.mem_map.mp hmem
  refine ⟨?_, pyStrip_idem m, ?_⟩
  · simpa [List.isEmpty_iff] using hkeep
  · exact fun hnl => nl_not_mem_splitNl hm (mem_of_mem_pyStrip hnl)

theorem pyStrip_normalizeLines (s : List Char) :
    pyStrip (normalizeLines s) = normalizeLines s := by
  unfold normalizeLines
  apply pyStrip_eq_self
  · apply noLeadSpace_joinNl
    intro l hl
    obtain ⟨h1, h2, _⟩ := procLine_facts hl
    exact ⟨h1, h2 ▸ noLeadSpace_pyStrip l⟩
  · apply dropTrail_joinNl
    intro l hl
    obtain ⟨h1, h2, _⟩ := procLine_facts hl
    refine ⟨h1, ?_⟩
    have hlead : noLeadSpace l = true := h2 ▸ noLeadSpace_pyStrip l
    have h3 : dropTrail l = l := by
      have h4 := h2
      unfold pyStrip at h4
      rwa [dropWhile_eq_self_of_noLead hlead] at h4
    exact h3

theorem normalizeLines_idem (s : List Char) :
    normalizeLines (normalizeLines s) = normalizeLines s := by
  by_cases h : ((splitNl s).map pyStrip).filter (fun l => !l.isEmpty) = []
  · show normalizeLines (normalizeLines s) = normalizeLines s
    unfold normalizeLines
    rw [h]
    rfl
  · have hfacts := fun e he => @procLine_facts s e he
    conv_lhs => rw [normalizeLines, normalizeLines]
    rw [splitNl_joinNl h (fun l hl => (hfacts l hl).2.2)]
    rw [map_self_of_fix (fun l hl => (hfacts l hl).2.1),
      filter_self_of_true ?keep]
    case keep =>
      intro a ha
      have ha1 := (hfacts a ha).1
      simp [List.isEmpty_iff, ha1]
    rfl

theorem stripKnownPrefix_no_match :
    ∀ {ps : List (List Char)} {s : List Char},
      (∀ p ∈ ps, matchesPrefix p s = false) → stripKnownPrefix ps s = s := by
  intro ps
  induction ps with
  | nil => intro s _; rfl
  | cons p ps ih =>
    intro s h
    simp only [stripKnownPrefix, h p (List.mem_cons_self p ps), Bool.false_eq_true, if_false]
    exact ih (fun q hq => h q (List.mem_cons_of_mem _ hq))

theorem stripKnownSuffix_no_match :
    ∀ {ss : List (List Char)} {s : List Char},
      (∀ q ∈ ss, matchesSuffix q s = false) → stripKnownSuffix ss s = s := by
  intro ss
  induction ss with
  | nil => intro s _; rfl
  | cons q ss ih =>
    intro s h
    simp only [stripKnownSuffix, h q (List.mem_cons_self q ss), Bool.false_eq_true, if_false]
    exact ih (fun r hr => h r (List.mem_cons_of_mem _ hr))

theorem clean_fixed_of_no_affix {y : List Char} (hy : ∃ z, y = normalizeLines z)
    (hp : ∀ p ∈ prefixes_to_remove, matchesPrefix p y = false)
    (hs : ∀ q ∈ suffixes_to_remove, matchesSuffix q y = false) :
    clean_joke_text y = y := by
  obtain ⟨z, rfl⟩ := hy
  unfold clean_joke_text
  rw [pyStrip_normalizeLines, stripKnownPrefix_no_match hp,
    stripKnownSuffix_no_match hs, normalizeLines_idem]

/-- C3 (counterexample): the text-cleaning function is not idempotent.
On `"Joke: Joke: ha"` the first call strips one `"Joke:"` lead-in
(at most one prefix is removed per call), leaving `"Joke: ha"`, and a
second call strips another, so `clean (clean x) ≠ clean x`. -/
theorem C3_clean_not_idempotent_cex :
    clean_joke_text (clean_joke_text "Joke: Joke: ha".toList) ≠
      clean_joke_text "Joke: Joke: ha".toList ∧
    clean_joke_text "Joke: Joke: ha".toList = "Joke: ha".toList ∧
    clean_joke_text (clean_joke_text "Joke: Joke: ha".toList) = "ha".toList := by
  refine ⟨by decide, by decide, by decide⟩

/-- C3 (amended): `clean` strips at most one listed prefix and one
listed suffix per call, so it is idempotent exactly on the inputs whose
cleaned form no longer begins with a listed lead-in nor ends with a
listed sign-off: for every such `x`,
`clean (clean x) = clean x`. -/
theorem C3_clean_idempotent_amended (x : List Char)
    (hp : hasKnownPrefix (clean_joke_text x) = false)
    (hs : hasKnownSuffix (clean_joke_text x) = false) :
    clean_joke_text (clean_joke_text x) = clean_joke_text x := by
  have hp' : ∀ p ∈ prefixes_to_remove, matchesPrefix p (clean_joke_text x) = false := by
    intro p hpp
    rw [Bool.eq_false_iff]
    intro htrue
    have hany : prefixes_to_remove.any (fun q => matchesPrefix q (clean_joke_text x)) = true :=
      List.any_eq_true.mpr ⟨p, hpp, htrue⟩
    unfold hasKnownPrefix at hp
    rw [hany] at hp
    exact Bool.noConfusion hp
  have hs' : ∀ q ∈ suffixes_to_remove, matchesSuffix q (clean_joke_text x) = false := by
    intro q hqq
    rw [Bool.eq_false_iff]
    intro htrue
    have hany : suffixes_to_remove.any (fun r => matchesSuffix r (clean_joke_text x)) = true :=
      List.any_eq_true.mpr ⟨q, hqq, htrue⟩
    unfold hasKnownSuffix at hs
    rw [hany] at hs
    exact Bool.noConfusion hs
  exact clean_fixed_of_no_affix ⟨_, rfl⟩ hp' hs'

/-- C3 (witness): a concrete input on which the amended idempotence
theorem applies. -/
theorem C3_clean_idempotent_amended_witness :
    hasKnownPrefix (clean_joke_text "Why did X".toList) = false ∧
    hasKnownSuffix (clean_joke_text "Why did X".toList) = false ∧
    clean_joke_text (clean_joke_text "Why did X".toList) =
      clean_joke_text "Why did X".toList :=
  ⟨by decide, by decide, C3_clean_idempotent_amended _ (by decide) (by decide)⟩

/-! # Lemmas about response and entry validation -/

theorem isValidUUID_ne_nil {u : List Char} (h : isValidUUID u = true) : u ≠ [] := by
  intro e
  subst e
  exact absurd h (by decide)

theorem isEmpty_false_of_ne_nil {l : List Char} (h : l ≠ []) : l.isEmpty = false := by
  rw [Bool.eq_false_iff]
  intro he
  exact h (List.isEmpty_iff.mp he)

theorem create_error_ok {u : List Char} (now : PyDatetime) {msg cat : List Char}
    (hu : isValidUUID u = true) (hcat : cat ≠ []) (hmsg : msg ≠ []) :
    JokeResponse.create_error u now msg cat = .ok ⟨u, [], cat, false, now, some msg⟩ := by
  have hu' := isEmpty_false_of_ne_nil (isValidUUID_ne_nil hu)
  have hc' := isEmpty_false_of_ne_nil hcat
  have hm' := isEmpty_false_of_ne_nil hmsg
  simp [JokeResponse.create_error, mkJokeResponse, JokeResponse.validateE,
    hu', hc', hm', hu, pyTruthyStrOpt]

theorem create_success_ok {u text cat : List Char} (now : PyDatetime)
    (hu : isValidUUID u = true) (hcat : cat ≠ [])
    (htext : (pyStrip text).isEmpty = false) :
    JokeResponse.create_success u now text cat = .ok ⟨u, text, cat, true, now, none⟩ := by
  have hu' := isEmpty_false_of_ne_nil (isValidUUID_ne_nil hu)
  have hc' := isEmpty_false_of_ne_nil hcat
  simp [JokeResponse.create_success, mkJokeResponse, JokeResponse.validateE,
    hu', hc', htext, hu]

/-! # Claim C1 -/

/-- C1 (counterexample): construction-time validation does not make the
two sides mutually exclusive.  A response with `success = true`, a
non-blank `joke_text` *and* a present `error_message` passes
validation, as does a response with `success = false`, a present
`error_message` *and* a non-empty `joke_text`. -/
theorem C1_validate_exclusivity_cex :
    (JokeResponse.mk uuidSample "ha".toList "general".toList true dtSample
      (some "oops".toList)).validate = true ∧
    (JokeResponse.mk uuidSample "ha".toList "general".toList true dtSample
      (some "oops".toList)).success = true ∧
    (JokeResponse.mk uuidSample "ha".toList "general".toList true dtSample
      (some "oops".toList)).error_message ≠ none ∧
    (JokeResponse.mk uuidSample "leftover".toList "general".toList false dtSample
      (some "err".toList)).validate = true ∧
    (JokeResponse.mk uuidSample "leftover".toList "general".toList false dtSample
      (some "err".toList)).success = false ∧
    (JokeResponse.mk uuidSample "leftover".toList "general".toList false dtSample
      (some "err".toList)).joke_text ≠ [] := by
  decide

/-- C1 (amended): construction-time validation guarantees only the two
one-way implications — `success = true` forces a non-blank `joke_text`,
and `success = false` forces a present non-empty `error_message`; it
does not force `error_message` absence on success nor `joke_text`
emptiness on failure.  The full exclusive shape does hold for every
response built by `create_success` (success, no error message) or
`create_error` (failure, empty `joke_text`, the given non-empty
message). -/
theorem C1_validate_invariant_amended :
    (∀ r : JokeResponse, r.validate = true →
      (r.success = true → pyStrip r.joke_text ≠ []) ∧
      (r.success = false → ∃ m, r.error_message = some m ∧ m ≠ [])) ∧
    (∀ (u : List Char) (now : PyDatetime) (t c : List Char) (r : JokeResponse),
      JokeResponse.create_success u now t c = .ok r →
      r.success = true ∧ r.error_message = none ∧ pyStrip r.joke_text ≠ []) ∧
    (∀ (u : List Char) (now : PyDatetime) (m c : List Char) (r : JokeResponse),
      JokeResponse.create_error u now m c = .ok r →
      r.success = false ∧ r.joke_text = [] ∧ r.error_message = some m ∧ m ≠ []) := by
  refine ⟨?_, ?_, ?_⟩
  · intro r h
    simp only [JokeResponse.validate, JokeResponse.validateE] at h
    split_ifs at h with h1 h2 h3 h4 h5
    · simp at h
    · simp at h
    · simp at h
    · simp at h
    · simp at h
    · refine ⟨fun hsucc => ?_, fun hfail => ?_⟩
      · intro he
        exact h4 (by simp [hsucc, he])
      · cases hm : r.error_message with
        | none => exact absurd (by simp [hfail, hm, pyTruthyStrOpt]) h5
        | some m =>
          refine ⟨m, rfl, ?_⟩
          intro me
          exact h5 (by simp [hfail, hm, me, pyTruthyStrOpt])
  · intro u now t c r h
    simp only [JokeResponse.create_success, mkJokeResponse] at h
    cases hE : (JokeResponse.mk u t c true now none).validateE with
    | some m => simp [hE] at h
    | none =>
      simp only [hE] at h
      cases h
      refine ⟨rfl, rfl, ?_⟩
      simp only [JokeResponse.validateE] at hE
      split_ifs at hE with h1 h2 h3 h4
      intro he
      exact h4 (by simp [he])
  · intro u now m c r h
    simp only [JokeResponse.create_error, mkJokeResponse] at h
    cases hE : (JokeResponse.mk u [] c false now (some m)).validateE with
    | some msg => simp [hE] at h
    | none =>
      simp only [hE] at h
      cases h
      refine ⟨rfl, rfl, rfl, ?_⟩
      simp only [JokeResponse.validateE] at hE
      split_ifs at hE with h1 h2 h3 h4 h5
      intro me
      exact h5 (by simp [me, pyTruthyStrOpt])

/-- C1 (witness): the amended invariant applied at concrete
responses. -/
theorem C1_validate_invariant_amended_witness :
    pyStrip "ha".toList ≠ [] ∧
    (∃ m, (some "err".toList : Option (List Char)) = some m ∧ m ≠ []) ∧
    ((true : Bool) = true ∧ (none : Option (List Char)) = none ∧ pyStrip "ha".toList ≠ []) ∧
    ((false : Bool) = false ∧ ([] : List Char) = [] ∧
      (some "boom".toList : Option (List Char)) = some "boom".toList ∧ "boom".toList ≠ []) := by
  have h := C1_validate_invariant_amended
  refine ⟨?_, ?_, ?_, ?_⟩
  · exact (h.1 ⟨uuidSample, "ha".toList, "general".toList, true, dtSample, none⟩
      (by decide)).1 rfl
  · exact (h.1 ⟨uuidSample, [], "general".toList, false, dtSample, some "err".toList⟩
      (by decide)).2 rfl
  · exact h.2.1 uuidSample dtSample "ha".toList "general".toList _ rfl
  · exact h.2.2 uuidSample dtSample "boom".toList "general".toList _ rfl

/-! # Claim C10 -/

theorem validateE_ne_none_of_bad_rating (e : FeedbackEntry)
    (h : e.rating < FEEDBACK_RATING_MIN ∨ FEEDBACK_RATING_MAX < e.rating) :
    e.validateE ≠ none := by
  simp only [FEEDBACK_RATING_MIN, FEEDBACK_RATING_MAX] at h
  unfold FeedbackEntry.validateE
  split_ifs with h1 h2 h3 h4
  · simp
  · simp
  · simp
  · simp
  · intro _
    have h4' : (decide (FEEDBACK_RATING_MIN ≤ e.rating) &&
        decide (e.rating ≤ FEEDBACK_RATING_MAX)) = true := by
      rcases Bool.eq_false_or_eq_true
          (decide (FEEDBACK_RATING_MIN ≤ e.rating) &&
            decide (e.rating ≤ FEEDBACK_RATING_MAX)) with hb | hb
      · exact hb
      · exact absurd (by rw [hb]; rfl) h4
    simp only [FEEDBACK_RATING_MIN, FEEDBACK_RATING_MAX, Bool.and_eq_true,
      decide_eq_true_eq] at h4'
    omega

/-- C10: for every successful `JokeResponse` and every integer rating
outside `[1, 5]`, `collect_user_feedback` returns `False` without
raising and leaves the feedback store untouched: the `FeedbackEntry`
constructor's range check raises before any `save_feedback` append is
attempted, and the exception is caught. -/
theorem C10_out_of_range_rating_rejected (st : FileState) (resp : JokeResponse)
    (rating : Int) (comment : Option (List Char)) (now : PyDatetime) (w : WriteOutcome)
    (hsucc : resp.success = true)
    (hrange : rating < FEEDBACK_RATING_MIN ∨ FEEDBACK_RATING_MAX < rating) :
    collect_user_feedback st resp rating comment now w = (st, false) := by
  unfold collect_user_feedback
  rw [hsucc]
  simp only [Bool.not_true, Bool.false_eq_true, if_false]
  unfold mkFeedbackEntry
  cases hE : (FeedbackEntry.mk resp.joke_id resp.joke_text resp.category rating now
      comment).validateE with
  | some m => simp [hE]
  | none => exact absurd hE (validateE_ne_none_of_bad_rating _ hrange)

/-- C10 (witness): a concrete successful response with the out-of-range
rating 9 leaves the (empty) store unchanged and returns `False`. -/
theorem C10_out_of_range_rating_rejected_witness :
    collect_user_feedback FileState.missing
      ⟨uuidSample, "ha".toList, "puns".toList, true, dtSample, none⟩ 9 none dtSample
      WriteOutcome.ok = (FileState.missing, false) :=
  C10_out_of_range_rating_rejected _ _ _ _ _ _ rfl (Or.inr (by decide))

/-! # Claim C4 -/

/-- C4 (counterexample): an append that fails *during* the write does
not leave the prior file contents intact.  `_save_feedback_data` opens
the file in mode `'w'` (truncating it) and streams `json.dump`, so an
`IOError` mid-write leaves a truncated, unparseable file: saving to a
store holding the (parseable) empty document with a disk-full failure
during the write replaces it with unparseable content. -/
theorem C4_partial_write_cex :
    (save_feedback (FileState.json emptyDoc) fbSample
        (WriteOutcome.failPartial "No space left on device".toList)).1 =
      FileState.unparseable ∧
    (save_feedback (FileState.json emptyDoc) fbSample
        (WriteOutcome.failPartial "No space left on device".toList)).2 =
      .error (.runtimeError ("Failed to save feedback data: ".toList ++
        "No space left on device".toList)) ∧
    FileState.unparseable ≠ FileState.json emptyDoc :=
  ⟨rfl, rfl, fun h => FileState.noConfusion h⟩

/-- C4 (amended): when the failed append never starts writing — the
file cannot be opened for writing, or the failure happens before the
write (missing key, non-list entries, statistics error) — the prior
contents remain exactly intact; a failure once writing has begun leaves
either the prior contents (failure before the write stage) or a
truncated, unparseable file, never a partially-applied update that
still parses. -/
theorem C4_no_partial_commit_amended (st : FileState) (fb : FeedbackEntry)
    (m : List Char) :
    (save_feedback st fb (WriteOutcome.failOpen m)).1 = st ∧
    ((save_feedback st fb (WriteOutcome.failPartial m)).1 = st ∨
      (save_feedback st fb (WriteOutcome.failPartial m)).1 = FileState.unparseable) := by
  cases hs : subscript (load_feedback_data st) kFeedbackEntries with
  | error e => exact ⟨by simp [save_feedback, hs], Or.inl (by simp [save_feedback, hs])⟩
  | ok v =>
    cases v with
    | arr es =>
      cases hu : update_statisticsE (setItem (load_feedback_data st) kFeedbackEntries
          (JValue.arr (es ++ [feedback_entry_to_dict fb]))) with
      | error e =>
        exact ⟨by simp [save_feedback, hs, hu], Or.inl (by simp [save_feedback, hs, hu])⟩
      | ok data2 =>
        exact ⟨by simp [save_feedback, hs, hu], Or.inr (by simp [save_feedback, hs, hu])⟩
    | null => exact ⟨by simp [save_feedback, hs], Or.inl (by simp [save_feedback, hs])⟩
    | bool b => exact ⟨by simp [save_feedback, hs], Or.inl (by simp [save_feedback, hs])⟩
    | int n => exact ⟨by simp [save_feedback, hs], Or.inl (by simp [save_feedback, hs])⟩
    | flt q => exact ⟨by simp [save_feedback, hs], Or.inl (by simp [save_feedback, hs])⟩
    | str s2 => exact ⟨by simp [save_feedback, hs], Or.inl (by simp [save_feedback, hs])⟩
    | obj fs => exact ⟨by simp [save_feedback, hs], Or.inl (by simp [save_feedback, hs])⟩

/-! # Claim C8 -/

/-- C8 (counterexample): loading is *not* uniform over every file
content.  A file whose content parses as JSON but lacks the expected
top-level keys (here the valid document `{}`) is returned as-is by
`_load_feedback_data`, and the subsequent subscripts raise `KeyError`
out of `get_feedback_stats` / `get_all_feedback` — unlike a missing
file, which yields the empty statistics and no entries. -/
theorem C8_wrong_shape_raises_cex :
    get_feedback_stats (FileState.json (JValue.obj [])) = .error (.keyError kStats) ∧
    get_all_feedback (FileState.json (JValue.obj [])) =
      .error (.keyError kFeedbackEntries) ∧
    get_feedback_stats FileState.missing = .ok emptyStats ∧
    get_all_feedback FileState.missing = .ok [] :=
  ⟨rfl, rfl, rfl, rfl⟩

/-- C8 (amended): for file content that fails to parse as JSON — and
for a missing file — loading never raises and behaves as the empty
document: `get_all_feedback` returns the empty list and
`get_feedback_stats` returns `{total_jokes: 0, average_rating: 0.0,
category_stats: {}}`.  Content that parses but has the wrong shape is
not recovered (see the counterexample). -/
theorem C8_unparseable_like_missing_amended :
    load_feedback_data FileState.unparseable = load_feedback_data FileState.missing ∧
    get_all_feedback FileState.unparseable = .ok [] ∧
    get_feedback_stats FileState.unparseable = .ok emptyStats ∧
    get_all_feedback FileState.missing = .ok [] ∧
    get_feedback_stats FileState.missing = .ok emptyStats ∧
    emptyStats =
      .obj [(kTotalJokes, .int 0), (kAverageRating, .flt 0), (kCategoryStats, .obj [])] :=
  ⟨rfl, rfl, rfl, rfl, rfl, rfl⟩

/-! # Claim C5 -/

theorem runGeneration_count_le_one (uuid : List Char) (now : PyDatetime)
    (cat : List Char) (mid : Option (List Char)) (o : GatewayOutcome) :
    (runGeneration uuid now cat mid o).2 ≤ 1 := by
  cases hp : get_joke_promptE cat with
  | error m => simp [runGeneration, hp]
  | ok p =>
    cases hc : mkBedrockConfig (mid.getD DEFAULT_MODEL_ID) (MAX_TOKENS : Int)
        TEMPERATURE TOP_P with
    | error e => simp [runGeneration, hp, hc]
    | ok cfg => cases o <;> simp [runGeneration, hp, hc]

/-- C5 (counterexample): the claim that every `complete` call performs
exactly one attempt against the underlying transport fails: the
botocore `Config` built in `_get_client` sets
`retries={'max_attempts': MAX_RETRIES, 'mode': 'adaptive'}` with
`MAX_RETRIES = 3`, so a call hitting two consecutive retryable
transport failures makes 3 transport attempts, not 1. -/
theorem C5_sdk_retries_configured_cex :
    (bedrockClientBotoConfig DEFAULT_AWS_REGION).retries.max_attempts = 3 ∧
    (bedrockClientBotoConfig DEFAULT_AWS_REGION).retries.mode = "adaptive".toList ∧
    MAX_RETRIES = 3 ∧
    sdkTransportAttempts (bedrockClientBotoConfig DEFAULT_AWS_REGION).retries 2 = 3 ∧
    sdkTransportAttempts (bedrockClientBotoConfig DEFAULT_AWS_REGION).retries 2 ≠ 1 := by
  refine ⟨rfl, rfl, rfl, rfl, by decide⟩

/-- C5 (amended): the gateway and service code themselves issue no
retries — one `generate_joke` call makes at most one
`client.invoke_model` call (exactly zero on the invalid-category
path) — but the SDK client is configured with
`max_attempts = MAX_RETRIES = 3` in adaptive mode, so the transport
below the gateway may make up to 3 attempts per call on retryable
failures. -/
theorem C5_single_sdk_call_amended :
    (∀ (uuid : List Char) (now : PyDatetime) (category : Option (List Char))
      (randomCat : List Char) (mid : Option (List Char)) (o : GatewayOutcome),
      generate_joke_invoke_count uuid now category randomCat mid o ≤ 1) ∧
    (∀ region : List Char,
      (bedrockClientBotoConfig region).retries = ⟨MAX_RETRIES, "adaptive".toList⟩) ∧
    MAX_RETRIES = 3 ∧
    (∀ n : Nat,
      sdkTransportAttempts (bedrockClientBotoConfig DEFAULT_AWS_REGION).retries n ≤
        MAX_RETRIES) := by
  refine ⟨?_, fun _ => rfl, rfl, fun n => Nat.min_le_right _ _⟩
  intro uuid now category randomCat mid o
  show (generate_jokeAux uuid now category randomCat mid o).2 ≤ 1
  have : (generate_jokeAux uuid now category randomCat mid o).2 =
      (generate_jokeTry uuid now category randomCat mid o).2 := rfl
  rw [this]
  unfold generate_jokeTry
  cases category with
  | none => exact runGeneration_count_le_one _ _ _ _ _
  | some c =>
    by_cases hv : validate_category c = true
    · simp only [hv, if_true]
      exact runGeneration_count_le_one _ _ _ _ _
    · rw [Bool.not_eq_true] at hv
      simp only [hv, Bool.false_eq_true, if_false]
      exact Nat.zero_le 1

/-! # Claim C6 -/

theorem validate_category_ne_nil {c : List Char} (h : validate_category c = true) :
    c ≠ [] := by
  intro e
  subst e
  exact absurd h (by decide)

theorem invalidCategoryMessage_ne_nil (c : List Char) :
    invalidCategoryMessage c ≠ [] := by
  intro h
  have hlen := congrArg List.length h
  simp only [invalidCategoryMessage, List.length_append, List.length_cons,
    List.length_nil] at hlen
  omega

/-- C6 (counterexample): for the invalid category `"invalid"` the
response's error message is `Invalid joke category 'invalid'.`, which
contains the invalid name but does *not* contain the list of valid
categories (not even the single category name `"general"`): the valid
set is rendered only into the guidance lines, which are not part of the
`JokeResponse`. -/
theorem C6_message_lacks_valid_set_cex :
    generate_joke uuidSample dtSample (some "invalid".toList) "general".toList none
        (GatewayOutcome.ok "why".toList) =
      .ok ⟨uuidSample, [], "invalid".toList, false, dtSample,
        some (invalidCategoryMessage "invalid".toList)⟩ ∧
    containsSubstring "invalid".toList (invalidCategoryMessage "invalid".toList) = true ∧
    containsSubstring (joinCommaSpace get_available_categories)
      (invalidCategoryMessage "invalid".toList) = false ∧
    containsSubstring "general".toList (invalidCategoryMessage "invalid".toList) = false := by
  refine ⟨rfl, by decide, by decide, by decide⟩

/-- C6 (amended): for every category name outside the valid set,
`generate_joke` returns `success = false` with error message exactly
`Invalid joke category '<name>'.` — containing the invalid name but not
the valid set, which appears only in the guidance line
`Available categories: ...` — and the gateway is never invoked: zero
`invoke_model` calls are made and the result is independent of the
gateway outcome. -/
theorem C6_invalid_category_amended (uuid : List Char) (now : PyDatetime)
    (c randomCat : List Char) (mid : Option (List Char)) (o o' : GatewayOutcome)
    (hu : isValidUUID uuid = true) (hv : validate_category c = false) (hc : c ≠ []) :
    generate_joke uuid now (some c) randomCat mid o =
      .ok ⟨uuid, [], c, false, now, some (invalidCategoryMessage c)⟩ ∧
    generate_jokeAux uuid now (some c) randomCat mid o =
      generate_jokeAux uuid now (some c) randomCat mid o' ∧
    generate_joke_invoke_count uuid now (some c) randomCat mid o = 0 ∧
    invalidCategoryMessage c =
      "Invalid joke category ".toList ++ apos :: c ++ apos :: ".".toList ∧
    invalidCategoryGuidanceHead (joinCommaSpace get_available_categories) =
      "Available categories: ".toList ++ joinCommaSpace get_available_categories := by
  have hbody : generate_jokeTry uuid now (some c) randomCat mid o =
      (JokeResponse.create_error uuid now (invalidCategoryMessage c) c, 0) := by
    simp only [generate_jokeTry]
    rw [if_neg (by simp [hv])]
  have hbody' : generate_jokeTry uuid now (some c) randomCat mid o' =
      (JokeResponse.create_error uuid now (invalidCategoryMessage c) c, 0) := by
    simp only [generate_jokeTry]
    rw [if_neg (by simp [hv])]
  have hcr := @create_error_ok uuid now (invalidCategoryMessage c)
    c hu hc (invalidCategoryMessage_ne_nil c)
  refine ⟨?_, ?_, ?_, rfl, rfl⟩
  · show (generate_jokeAux uuid now (some c) randomCat mid o).1 = _
    unfold generate_jokeAux
    rw [hbody, hcr]
    rfl
  · unfold generate_jokeAux
    rw [hbody, hbody']
  · show (generate_jokeAux uuid now (some c) randomCat mid o).2 = 0
    unfold generate_jokeAux
    rw [hbody]

/-- C6 (witness): the amended statement applied at the concrete invalid
category `"invalid"`. -/
theorem C6_invalid_category_amended_witness :
    generate_joke uuidSample dtSample (some "invalid".toList) "general".toList none
        (GatewayOutcome.bedrockError .noCredentials) =
      .ok ⟨uuidSample, [], "invalid".toList, false, dtSample,
        some (invalidCategoryMessage "invalid".toList)⟩ ∧
    generate_jokeAux uuidSample dtSample (some "invalid".toList) "general".toList none
        (GatewayOutcome.bedrockError .noCredentials) =
      generate_jokeAux uuidSample dtSample (some "invalid".toList) "general".toList none
        (GatewayOutcome.ok "why".toList) :=
  have h := C6_invalid_category_amended uuidSample dtSample "invalid".toList
    "general".toList none (GatewayOutcome.bedrockError .noCredentials)
    (GatewayOutcome.ok "why".toList) (by decide) (by decide) (by decide)
  ⟨h.1, h.2.1⟩

/-! # Claim C2 -/

theorem append_ne_nil_left {a : List Char} (ha : a ≠ []) (b : List Char) :
    a ++ b ≠ [] :=
  fun h => ha (List.append_eq_nil.mp h).1

theorem bedrockError_message_ne_nil (e : BedrockError) : e.message ≠ [] := by
  cases e with
  | noCredentials => decide
  | accessDenied mid =>
    intro h
    have hlen := congrArg List.length h
    simp only [BedrockError.message, List.length_append, List.length_cons,
      List.length_nil] at hlen
    omega
  | awsClientError code msg =>
    intro h
    have hlen := congrArg List.length h
    have hA : 0 < ("AWS client error (".toList).length := by decide
    simp only [BedrockError.message, List.length_append, List.length_cons,
      List.length_nil] at hlen
    omega
  | initFailed msg =>
    intro h
    have hlen := congrArg List.length h
    have hA : 0 < ("Failed to initialize Bedrock client: ".toList).length := by decide
    simp only [BedrockError.message, List.length_append, List.length_cons,
      List.length_nil] at hlen
    omega
  | invalidProfile p =>
    intro h
    have hlen := congrArg List.length h
    simp only [BedrockError.message, List.length_append, List.length_cons,
      List.length_nil] at hlen
    omega
  | rateLimit => decide
  | serviceUnavailable => decide
  | invalidRequest d =>
    intro h
    have hlen := congrArg List.length h
    have hA : 0 < ("Invalid request: ".toList).length := by decide
    simp only [BedrockError.message, List.length_append, List.length_cons,
      List.length_nil] at hlen
    omega
  | modelNotFound mid =>
    intro h
    have hlen := congrArg List.length h
    simp only [BedrockError.message, List.length_append, List.length_cons,
      List.length_nil] at hlen
    omega
  | timeoutError => decide
  | networkError => decide
  | malformedResponse => decide
  | sdkError msg =>
    intro h
    have hlen := congrArg List.length h
    have hA : 0 < ("AWS SDK error: ".toList).length := by decide
    simp only [BedrockError.message, List.length_append, List.length_cons,
      List.length_nil] at hlen
    omega
  | unexpectedInvoke msg =>
    intro h
    have hlen := congrArg List.length h
    have hA : 0 < ("Unexpected error: ".toList).length := by decide
    simp only [BedrockError.message, List.length_append, List.length_cons,
      List.length_nil] at hlen
    omega
  | emptyModelResponse => decide
  | awsApiError code msg =>
    intro h
    have hlen := congrArg List.length h
    have hA : 0 < ("AWS API error (".toList).length := by decide
    simp only [BedrockError.message, List.length_append, List.length_cons,
      List.length_nil] at hlen
    omega

theorem pyOrStr_unknown_ne_nil (s : List Char) : pyOrStr s "unknown".toList ≠ [] := by
  unfold pyOrStr
  by_cases h : s.isEmpty = true
  · rw [if_pos h]; decide
  · rw [if_neg h]
    exact fun e => h (by rw [e]; rfl)

theorem generationHandler_error_ok (uuid : List Char) (now : PyDatetime)
    (resolved : List Char) (hu : isValidUUID uuid = true) (e : PyExc) :
    ∃ r, generationHandler uuid now resolved (.error e) = .ok r ∧
      r.success = false ∧ ∃ m, r.error_message = some m ∧ m ≠ [] := by
  cases e with
  | bedrockClientError be =>
    exact ⟨_, create_error_ok now hu (pyOrStr_unknown_ne_nil _)
      (bedrockError_message_ne_nil be), rfl, _, rfl, bedrockError_message_ne_nil be⟩
  | valueError m =>
    exact ⟨_, create_error_ok now hu (pyOrStr_unknown_ne_nil _)
      (append_ne_nil_left (by decide) _), rfl, _, rfl,
      append_ne_nil_left (by decide) _⟩
  | keyError k =>
    exact ⟨_, create_error_ok now hu (pyOrStr_unknown_ne_nil _)
      (append_ne_nil_left (by decide) _), rfl, _, rfl,
      append_ne_nil_left (by decide) _⟩
  | typeError =>
    exact ⟨_, create_error_ok now hu (pyOrStr_unknown_ne_nil _)
      (append_ne_nil_left (by decide) _), rfl, _, rfl,
      append_ne_nil_left (by decide) _⟩
  | attributeError =>
    exact ⟨_, create_error_ok now hu (pyOrStr_unknown_ne_nil _)
      (append_ne_nil_left (by decide) _), rfl, _, rfl,
      append_ne_nil_left (by decide) _⟩
  | runtimeError m =>
    exact ⟨_, create_error_ok now hu (pyOrStr_unknown_ne_nil _)
      (append_ne_nil_left (by decide) _), rfl, _, rfl,
      append_ne_nil_left (by decide) _⟩
  | otherExc m =>
    exact ⟨_, create_error_ok now hu (pyOrStr_unknown_ne_nil _)
      (append_ne_nil_left (by decide) _), rfl, _, rfl,
      append_ne_nil_left (by decide) _⟩

theorem run_then_handler_ok (uuid : List Char) (now : PyDatetime) (cat : List Char)
    (mid : Option (List Char)) (o : GatewayOutcome)
    (hu : isValidUUID uuid = true) (hcat : validate_category cat = true) :
    ∃ r, generationHandler uuid now cat ((runGeneration uuid now cat mid o).1) = .ok r ∧
      ((∃ e, o = .bedrockError e) ∨ (∃ m, o = .unexpectedExc m) →
        r.success = false ∧ ∃ m, r.error_message = some m ∧ m ≠ []) := by
  have hcne := validate_category_ne_nil hcat
  have hprompt : get_joke_promptE cat = .ok cat := by
    unfold get_joke_promptE
    rw [if_pos hcat]
  cases hcfg : mkBedrockConfig (mid.getD DEFAULT_MODEL_ID) (MAX_TOKENS : Int)
      TEMPERATURE TOP_P with
  | error e =>
    have h1 : (runGeneration uuid now cat mid o).1 = .error e := by
      simp only [runGeneration, hprompt, hcfg]
    obtain ⟨r, hr, hprops⟩ := generationHandler_error_ok uuid now cat hu e
    exact ⟨r, by rw [h1]; exact hr, fun _ => hprops⟩
  | ok cfg =>
    cases o with
    | ok text =>
      by_cases hcl : (pyStrip (clean_joke_text text)).isEmpty = true
      · have h1 : (runGeneration uuid now cat mid (.ok text)).1 =
            JokeResponse.create_error uuid now emptyResponseMessage cat := by
          simp only [runGeneration, hprompt, hcfg, hcl, if_true]
        refine ⟨⟨uuid, [], cat, false, now, some emptyResponseMessage⟩, ?_, ?_⟩
        · rw [h1, create_error_ok now hu hcne (show emptyResponseMessage ≠ [] by decide)]
          rfl
        · rintro (⟨e, he⟩ | ⟨m, hm⟩)
          · cases he
          · cases hm
      · rw [Bool.not_eq_true] at hcl
        have h1 : (runGeneration uuid now cat mid (.ok text)).1 =
            JokeResponse.create_success uuid now (clean_joke_text text) cat := by
          simp only [runGeneration, hprompt, hcfg, hcl, Bool.false_eq_true, if_false]
        refine ⟨⟨uuid, clean_joke_text text, cat, true, now, none⟩, ?_, ?_⟩
        · rw [h1, create_success_ok now hu hcne hcl]
          rfl
        · rintro (⟨e, he⟩ | ⟨m, hm⟩)
          · cases he
          · cases hm
    | bedrockError e =>
      have h1 : (runGeneration uuid now cat mid (.bedrockError e)).1 =
          .error (.bedrockClientError e) := by
        simp only [runGeneration, hprompt, hcfg]
      obtain ⟨r, hr, hprops⟩ :=
        generationHandler_error_ok uuid now cat hu (.bedrockClientError e)
      exact ⟨r, by rw [h1]; exact hr, fun _ => hprops⟩
    | unexpectedExc m =>
      have h1 : (runGeneration uuid now cat mid (.unexpectedExc m)).1 =
          .error (.otherExc m) := by
        simp only [runGeneration, hprompt, hcfg]
      obtain ⟨r, hr, hprops⟩ := generationHandler_error_ok uuid now cat hu (.otherExc m)
      exact ⟨r, by rw [h1]; exact hr, fun _ => hprops⟩

/-- C2: for every category argument (valid, invalid, or `None`) and
every gateway outcome — returned text, any `BedrockClientError` the
client can raise, or any other exception raised during the
invocation — `generate_joke` returns a `JokeResponse` and never
propagates an exception; in every generation-domain failure
circumstance the returned response has `success = false` and a
non-empty error message.  (`uuid` is the `uuid.uuid4()` draw, always a
valid UUID string; `randomCat` is the `random.choice` draw over
`AVAILABLE_CATEGORIES`.) -/
theorem C2_generate_joke_never_throws (uuid : List Char) (now : PyDatetime)
    (category : Option (List Char)) (randomCat : List Char)
    (model_id : Option (List Char)) (outcome : GatewayOutcome)
    (hu : isValidUUID uuid = true) (hr : randomCat ∈ AVAILABLE_CATEGORIES) :
    ∃ r, generate_joke uuid now category randomCat model_id outcome = .ok r ∧
      (generationErrorCase category outcome →
        r.success = false ∧ ∃ m, r.error_message = some m ∧ m ≠ []) := by
  have hrv : validate_category randomCat = true := by
    fin_cases hr <;> decide
  cases category with
  | none =>
    obtain ⟨r, hrr, himp⟩ := run_then_handler_ok uuid now randomCat model_id outcome hu hrv
    refine ⟨r, hrr, ?_⟩
    rintro (h | h | ⟨c, hc, _⟩)
    · exact himp (Or.inl h)
    · exact himp (Or.inr h)
    · cases hc
  | some c =>
    by_cases hv : validate_category c = true
    · obtain ⟨r, hrr, himp⟩ := run_then_handler_ok uuid now c model_id outcome hu hv
      have htry : generate_jokeTry uuid now (some c) randomCat model_id outcome =
          runGeneration uuid now c model_id outcome := by
        simp only [generate_jokeTry]
        rw [if_pos hv]
      refine ⟨r, ?_, ?_⟩
      · show generationHandler uuid now c
          (generate_jokeTry uuid now (some c) randomCat model_id outcome).1 = .ok r
        rw [htry]
        exact hrr
      · rintro (h | h | ⟨c', hc', hv'⟩)
        · exact himp (Or.inl h)
        · exact himp (Or.inr h)
        · cases hc'
          exact absurd hv (by rw [hv']; exact Bool.noConfusion)
    · rw [Bool.not_eq_true] at hv
      by_cases hc : c = []
      · subst hc
        have htry : (generate_jokeTry uuid now (some []) randomCat model_id outcome).1 =
            .error (.valueError "category must be a non-empty string".toList) := by
          simp only [generate_jokeTry]
          rw [if_neg (by simp [hv])]
          simp [JokeResponse.create_error, mkJokeResponse, JokeResponse.validateE,
            isEmpty_false_of_ne_nil (isValidUUID_ne_nil hu), hu]
        obtain ⟨r, hrr, hprops⟩ := generationHandler_error_ok uuid now [] hu
          (.valueError "category must be a non-empty string".toList)
        refine ⟨r, ?_, fun _ => hprops⟩
        show generationHandler uuid now []
          (generate_jokeTry uuid now (some []) randomCat model_id outcome).1 = .ok r
        rw [htry]
        exact hrr
      · have htry : generate_jokeTry uuid now (some c) randomCat model_id outcome =
            (JokeResponse.create_error uuid now (invalidCategoryMessage c) c, 0) := by
          simp only [generate_jokeTry]
          rw [if_neg (by simp [hv])]
        have hcr := @create_error_ok uuid now (invalidCategoryMessage c)
          c hu hc (invalidCategoryMessage_ne_nil c)
        refine ⟨⟨uuid, [], c, false, now, some (invalidCategoryMessage c)⟩, ?_,
          fun _ => ⟨rfl, invalidCategoryMessage c, rfl, invalidCategoryMessage_ne_nil c⟩⟩
        show generationHandler uuid now c
          (generate_jokeTry uuid now (some c) randomCat model_id outcome).1 = _
        rw [htry, show (JokeResponse.create_error uuid now (invalidCategoryMessage c) c,
          (0 : Nat)).1 = JokeResponse.create_error uuid now (invalidCategoryMessage c) c
          from rfl, hcr]
        rfl

/-- C2 (witness): the uniform contract applied at a concrete call with
a raised gateway credential error and a random category draw. -/
theorem C2_generate_joke_never_throws_witness :
    ∃ r, generate_joke uuidSample dtSample none "general".toList none
        (GatewayOutcome.bedrockError .noCredentials) = .ok r ∧
      (generationErrorCase none (GatewayOutcome.bedrockError .noCredentials) →
        r.success = false ∧ ∃ m, r.error_message = some m ∧ m ≠ []) :=
  C2_generate_joke_never_throws uuidSample dtSample none "general".toList none
    (GatewayOutcome.bedrockError .noCredentials) (by decide) (by decide)

/-! # Lemmas about the storage model -/

theorem lookupField_setField_self (fields : List (List Char × JValue))
    (k : List Char) (x : JValue) :
    lookupField (setField fields k x) k = some x := by
  induction fields with
  | nil => simp [setField, lookupField]
  | cons p rest ih =>
    obtain ⟨k0, v0⟩ := p
    by_cases h : k0 = k
    · simp [setField, lookupField, h]
    · simp [setField, lookupField, h, ih]

theorem lookupField_setField_ne (fields : List (List Char × JValue))
    {k' k : List Char} (h : k' ≠ k) (x : JValue) :
    lookupField (setField fields k' x) k = lookupField fields k := by
  induction fields with
  | nil => simp [setField, lookupField, h]
  | cons p rest ih =>
    obtain ⟨k0, v0⟩ := p
    by_cases h0 : k0 = k'
    · subst h0
      simp [setField, lookupField, h]
    · simp only [setField, if_neg h0]
      by_cases h1 : k0 = k
      · simp [lookupField, h1]
      · simp [lookupField, h1, ih]

theorem asStrField_some {fields : List (List Char × JValue)} {k s : List Char}
    (h : asStrField fields k = some s) : lookupField fields k = some (.str s) := by
  unfold asStrField at h
  split at h
  · next hx =>
    cases h
    exact hx
  · cases h

theorem asIntField_some {fields : List (List Char × JValue)} {k : List Char} {n : Int}
    (h : asIntField fields k = some n) : lookupField fields k = some (.int n) := by
  unfold asIntField at h
  split at h
  · next hx =>
    cases h
    exact hx
  · cases h

theorem conv_fields {v : JValue} {f : FeedbackEntry}
    (h : dict_to_feedback_entry v = some f) :
    getCategoryJ v = .ok f.category ∧ getRatingJ v = .ok f.rating := by
  match v with
  | .null => exact Option.noConfusion h
  | .bool _ => exact Option.noConfusion h
  | .int _ => exact Option.noConfusion h
  | .flt _ => exact Option.noConfusion h
  | .str _ => exact Option.noConfusion h
  | .arr _ => exact Option.noConfusion h
  | .obj fields =>
    simp only [dict_to_feedback_entry] at h
    split at h
    · split at h
      · next jid jtext cat r ts h1 h2 h3 h4 h5 =>
        split at h
        · exact Option.noConfusion h
        · split at h
          · exact Option.noConfusion h
          · split at h
            · next hvalid =>
              cases h
              constructor
              · simp [getCategoryJ, asStrField_some h3]
              · simp [getRatingJ, asIntField_some h4]
            · exact Option.noConfusion h
      · exact Option.noConfusion h
    · exact Option.noConfusion h

theorem readDigitsAux_pad {k : Nat} :
    ∀ {n : Nat}, n < 10 ^ k → ∀ (acc : Nat) (rest : List Char),
      readDigitsAux k acc (padDigits k n ++ rest) = some (acc * 10 ^ k + n, rest) := by
  induction k with
  | zero =>
    intro n hn acc rest
    have hn0 : n = 0 := by omega
    subst hn0
    simp [padDigits, readDigitsAux]
  | succ k ih =>
    intro n hn acc rest
    have hpow : 0 < 10 ^ k := Nat.pos_pow_of_pos k (by omega)
    have hdiv : n / 10 ^ k < 10 := by
      rw [Nat.div_lt_iff_lt_mul hpow]
      calc n < 10 ^ (k + 1) := hn
        _ = 10 * 10 ^ k := by rw [Nat.pow_succ]; ring
        _ = 10 * 10 ^ k := rfl
    have hmod : n % 10 ^ k < 10 ^ k := Nat.mod_lt _ hpow
    have hdig : (Char.ofNat (48 + n / 10 ^ k)).isDigit = true := by
      set m := n / 10 ^ k with hm
      interval_cases m <;> decide
    have htoNat : (Char.ofNat (48 + n / 10 ^ k)).toNat - 48 = n / 10 ^ k := by
      set m := n / 10 ^ k with hm
      interval_cases m <;> decide
    simp only [padDigits, List.cons_append, readDigitsAux, hdig, if_true, htoNat,
      List.append_eq]
    rw [ih hmod]
    congr 1
    have hdm := Nat.div_add_mod n (10 ^ k)
    have : (acc * 10 + n / 10 ^ k) * 10 ^ k + n % 10 ^ k = acc * 10 ^ (k + 1) + n := by
      conv_rhs => rw [← hdm]
      rw [Nat.pow_succ]
      ring
    rw [this]

theorem readDigits_pad {k n : Nat} (hn : n < 10 ^ k) (rest : List Char) :
    readDigits k (padDigits k n ++ rest) = some (n, rest) := by
  unfold readDigits
  rw [readDigitsAux_pad hn 0 rest]
  simp

theorem pyFromisoformat_isoformat {d : PyDatetime} (h : d.valid = true) :
    pyFromisoformat d.isoformat = some d := by
  obtain ⟨y, mo, da, hh, mi, se, us⟩ := d
  have hb := h
  simp only [PyDatetime.valid, Bool.and_eq_true, decide_eq_true_eq] at hb
  have hpow4 : (10 : Nat) ^ 4 = 10000 := by norm_num
  have hpow2 : (10 : Nat) ^ 2 = 100 := by norm_num
  have hpow6 : (10 : Nat) ^ 6 = 1000000 := by norm_num
  have hdm : daysInMonth y mo ≤ 31 := by
    unfold daysInMonth
    split_ifs <;> omega
  have hy : y < 10 ^ 4 := by omega
  have hmo : mo < 10 ^ 2 := by omega
  have hda : da < 10 ^ 2 := by omega
  have hhh : hh < 10 ^ 2 := by omega
  have hmi : mi < 10 ^ 2 := by omega
  have hse : se < 10 ^ 2 := by omega
  have hus : us < 10 ^ 6 := by omega
  have hstep : ∀ (c : Char) (rest : List Char), expectChar c (c :: rest) = some rest := by
    intro c rest
    simp [expectChar]
  simp only [PyDatetime.isoformat, List.append_assoc, List.cons_append]
  by_cases h0 : us = 0
  · subst h0
    rw [if_pos rfl, List.append_nil]
    unfold pyFromisoformat
    rw [readDigits_pad hy]
    dsimp only
    rw [hstep]
    dsimp only
    rw [readDigits_pad hmo]
    dsimp only
    rw [hstep]
    dsimp only
    rw [readDigits_pad hda]
    dsimp only
    rw [hstep]
    dsimp only
    rw [readDigits_pad hhh]
    dsimp only
    rw [hstep]
    dsimp only
    rw [readDigits_pad hmi]
    dsimp only
    rw [hstep]
    dsimp only
    rw [show padDigits 2 se = padDigits 2 se ++ [] from (List.append_nil _).symm,
      readDigits_pad hse]
    dsimp only [readMicroseconds]
    rw [if_pos rfl, if_pos h]
  · rw [if_neg h0]
    unfold pyFromisoformat
    rw [readDigits_pad hy]
    dsimp only
    rw [hstep]
    dsimp only
    rw [readDigits_pad hmo]
    dsimp only
    rw [hstep]
    dsimp only
    rw [readDigits_pad hda]
    dsimp only
    rw [hstep]
    dsimp only
    rw [readDigits_pad hhh]
    dsimp only
    rw [hstep]
    dsimp only
    rw [readDigits_pad hmi]
    dsimp only
    rw [hstep]
    dsimp only
    rw [readDigits_pad hse]
    dsimp only
    rw [show readMicroseconds ('.' :: padDigits 6 us) = readDigits 6 (padDigits 6 us)
      from by simp [readMicroseconds]]
    rw [show padDigits 6 us = padDigits 6 us ++ [] from (List.append_nil _).symm,
      readDigits_pad hus]
    dsimp only
    rw [if_pos rfl, if_pos h]

theorem length_filterMap_conv {es : List JValue}
    (h : ∀ d ∈ es, (dict_to_feedback_entry d).isSome) :
    (es.filterMap dict_to_feedback_entry).length = es.length := by
  induction es with
  | nil => rfl
  | cons d ds ih =>
    obtain ⟨f, hf⟩ := Option.isSome_iff_exists.mp (h d (List.mem_cons_self d ds))
    rw [List.filterMap_cons, hf, List.length_cons, List.length_cons,
      ih (fun e he => h e (List.mem_cons_of_mem _ he))]

theorem sumRatings_conv {es : List JValue}
    (h : ∀ d ∈ es, (dict_to_feedback_entry d).isSome) :
    sumRatings es =
      .ok (((es.filterMap dict_to_feedback_entry).map FeedbackEntry.rating).sum) := by
  induction es with
  | nil => rfl
  | cons d ds ih =>
    obtain ⟨f, hf⟩ := Option.isSome_iff_exists.mp (h d (List.mem_cons_self d ds))
    have hr := (conv_fields hf).2
    rw [List.filterMap_cons]
    simp only [sumRatings, hr, ih (fun e he => h e (List.mem_cons_of_mem _ he)), hf,
      List.map_cons, List.sum_cons, Bind.bind, Except.bind]

theorem categoryFoldAux_conv {es : List JValue}
    (h : ∀ d ∈ es, (dict_to_feedback_entry d).isSome)
    (acc : List (List Char × Nat × Int)) :
    categoryFoldAux acc es =
      .ok (catFoldEntries acc (es.filterMap dict_to_feedback_entry)) := by
  induction es generalizing acc with
  | nil => rfl
  | cons d ds ih =>
    obtain ⟨f, hf⟩ := Option.isSome_iff_exists.mp (h d (List.mem_cons_self d ds))
    have hc := (conv_fields hf).1
    have hr := (conv_fields hf).2
    rw [List.filterMap_cons]
    simp only [categoryFoldAux, hc, hr, hf, catFoldEntries, Bind.bind, Except.bind]
    exact ih (fun e he => h e (List.mem_cons_of_mem _ he)) _

theorem statsFor_conv {es : List JValue}
    (h : ∀ d ∈ es, (dict_to_feedback_entry d).isSome) :
    statsFor es = .ok (aggregateOfEntries (es.filterMap dict_to_feedback_entry)) := by
  by_cases he : es = []
  · subst he
    rfl
  · have hlen := length_filterMap_conv h
    have hne : (es.filterMap dict_to_feedback_entry) ≠ [] := by
      intro e
      rw [e] at hlen
      exact he (List.length_eq_zero.mp hlen.symm)
    unfold statsFor aggregateOfEntries
    rw [if_neg (by simp [List.isEmpty_iff, he]), if_neg (by simp [List.isEmpty_iff, hne])]
    simp only [sumRatings_conv h, categoryFoldAux_conv h, hlen, Bind.bind, Except.bind]

theorem conv_entryToDict {f : FeedbackEntry} (hf : WFEntry f) :
    dict_to_feedback_entry (feedback_entry_to_dict f) = some f := by
  obtain ⟨hval, htime⟩ := hf
  have hiso := pyFromisoformat_isoformat htime
  obtain ⟨jid, jtext, cat, r, ts, cm⟩ := f
  cases cm with
  | none =>
    simp +decide [dict_to_feedback_entry, feedback_entry_to_dict, entryKeys,
      asStrField, asIntField, lookupField, commentFromField, hiso, hval]
  | some c =>
    simp +decide [dict_to_feedback_entry, feedback_entry_to_dict, entryKeys,
      asStrField, asIntField, lookupField, commentFromField, hiso, hval]

theorem hasEntries_inv {st : FileState} {es : List JValue} (h : HasEntries st es) :
    ∃ fields, load_feedback_data st = .obj fields ∧
      lookupField fields kFeedbackEntries = some (.arr es) := by
  unfold HasEntries at h
  cases hl : load_feedback_data st with
  | obj fields =>
    rw [hl] at h
    unfold subscript at h
    dsimp only at h
    cases hlk : lookupField fields kFeedbackEntries with
    | none =>
      rw [hlk] at h
      exact Except.noConfusion h
    | some x =>
      rw [hlk] at h
      dsimp only at h
      injection h with hx
      exact ⟨fields, rfl, hx ▸ hlk⟩
  | null => rw [hl] at h; exact Except.noConfusion h
  | bool b => rw [hl] at h; exact Except.noConfusion h
  | int n => rw [hl] at h; exact Except.noConfusion h
  | flt q => rw [hl] at h; exact Except.noConfusion h
  | str s => rw [hl] at h; exact Except.noConfusion h
  | arr xs => rw [hl] at h; exact Except.noConfusion h

theorem save_feedback_ok_entries {st : FileState} {es : List JValue} (fb : FeedbackEntry)
    (hE : HasEntries st es) (hwf : ∀ d ∈ es, (dict_to_feedback_entry d).isSome)
    (hfb : WFEntry fb) :
    (save_feedback st fb .ok).2 = .ok () ∧
    HasEntries (save_feedback st fb .ok).1 (es ++ [feedback_entry_to_dict fb]) ∧
    (∀ d ∈ es ++ [feedback_entry_to_dict fb], (dict_to_feedback_entry d).isSome) := by
  obtain ⟨fields, hl, hlk⟩ := hasEntries_inv hE
  have hconv := conv_entryToDict hfb
  have hwf' : ∀ d ∈ es ++ [feedback_entry_to_dict fb],
      (dict_to_feedback_entry d).isSome := by
    intro d hd
    rcases List.mem_append.mp hd with h1 | h1
    · exact hwf d h1
    · rw [List.mem_singleton.mp h1, hconv]
      rfl
  have hsub : subscript (load_feedback_data st) kFeedbackEntries = .ok (.arr es) := hE
  have hupd : update_statisticsE (setItem (load_feedback_data st) kFeedbackEntries
      (.arr (es ++ [feedback_entry_to_dict fb]))) =
      .ok (.obj (setField (setField fields kFeedbackEntries
        (.arr (es ++ [feedback_entry_to_dict fb]))) kStats
        (aggregateOfEntries ((es ++ [feedback_entry_to_dict fb]).filterMap
          dict_to_feedback_entry)))) := by
    rw [hl]
    simp only [setItem, update_statisticsE, subscript, lookupField_setField_self,
      statsFor_conv hwf']
  have hres : (save_feedback st fb .ok) =
      (.json (.obj (setField (setField fields kFeedbackEntries
          (.arr (es ++ [feedback_entry_to_dict fb]))) kStats
        (aggregateOfEntries ((es ++ [feedback_entry_to_dict fb]).filterMap
          dict_to_feedback_entry)))), .ok ()) := by
    simp only [save_feedback, hsub, hupd]
  refine ⟨?_, ?_, hwf'⟩
  · rw [hres]
  · rw [hres]
    unfold HasEntries load_feedback_data subscript
    dsimp only
    rw [lookupField_setField_ne _ (by decide) _, lookupField_setField_self]

theorem stateInv_canonical {st : FileState} (hInv : StateInv st) :
    ∃ es s, load_feedback_data st =
        .obj [(kFeedbackEntries, .arr es), (kStats, s)] ∧
      (∀ d ∈ es, (dict_to_feedback_entry d).isSome) ∧ statsFor es = .ok s := by
  cases st with
  | missing => exact ⟨[], emptyStats, rfl, by simp, rfl⟩
  | unparseable => exact ⟨[], emptyStats, rfl, by simp, rfl⟩
  | json v =>
    obtain ⟨es, s, rfl, h1, h2⟩ := hInv
    exact ⟨es, s, rfl, h1, h2⟩

theorem save_preserves_inv (st : FileState) (fb : FeedbackEntry) (w : WriteOutcome)
    (hInv : StateInv st) (hfb : WFEntry fb) : StateInv (save_feedback st fb w).1 := by
  obtain ⟨es, s, hl, hwf, hstats⟩ := stateInv_canonical hInv
  have hwf' : ∀ d ∈ es ++ [feedback_entry_to_dict fb],
      (dict_to_feedback_entry d).isSome := by
    intro d hd
    rcases List.mem_append.mp hd with h1 | h1
    · exact hwf d h1
    · rw [List.mem_singleton.mp h1, conv_entryToDict hfb]
      rfl
  have hsub : subscript (load_feedback_data st) kFeedbackEntries = .ok (.arr es) := by
    rw [hl]
    simp [subscript, lookupField]
  have hupd : update_statisticsE (setItem (load_feedback_data st) kFeedbackEntries
      (.arr (es ++ [feedback_entry_to_dict fb]))) =
      .ok (.obj [(kFeedbackEntries, .arr (es ++ [feedback_entry_to_dict fb])),
        (kStats, aggregateOfEntries ((es ++ [feedback_entry_to_dict fb]).filterMap
          dict_to_feedback_entry))]) := by
    rw [hl]
    simp +decide [setItem, setField, update_statisticsE, subscript, lookupField,
      statsFor_conv hwf']
  cases w with
  | ok =>
    simp only [save_feedback, hsub, hupd]
    exact ⟨es ++ [feedback_entry_to_dict fb], _, rfl, hwf', statsFor_conv hwf'⟩
  | failOpen m =>
    simp only [save_feedback, hsub, hupd]
    exact hInv
  | failPartial m =>
    simp only [save_feedback, hsub, hupd]
    trivial

theorem clear_preserves_inv (st : FileState) (w : WriteOutcome)
    (hInv : StateInv st) : StateInv (clear_all_feedback st w).1 := by
  cases w with
  | ok => exact ⟨[], emptyStats, rfl, by simp, rfl⟩
  | failOpen m => exact hInv
  | failPartial m => trivial

theorem stateInv_agree {st : FileState} (hInv : StateInv st) :
    ∃ s fs, get_feedback_stats st = .ok s ∧ get_all_feedback st = .ok fs ∧
      aggregateOfEntries fs = s := by
  obtain ⟨es, s, hl, hwf, hstats⟩ := stateInv_canonical hInv
  have hsub : subscript (load_feedback_data st) kFeedbackEntries = .ok (.arr es) := by
    rw [hl]
    simp [subscript, lookupField]
  refine ⟨s, es.filterMap dict_to_feedback_entry, ?_, ?_, ?_⟩
  · unfold get_feedback_stats
    rw [hl]
    simp +decide [subscript, lookupField]
  · simp only [get_all_feedback, hsub]
  · have hc := statsFor_conv hwf
    rw [hc] at hstats
    injection hstats

/-! # Claim C7 -/

/-- C7: the persisted statistics never drift from the entry log.  The
store's state invariant `StateInv` — the parseable states the store
itself writes are well-formed documents whose stored `stats` equal the
recomputation from the entry list — holds of the initial (missing)
state, is preserved by every `save_feedback` call (any write outcome)
and every `clear_all_feedback` call, and under it the statistics
snapshot equals the aggregate recomputed, by the same algorithm as
`_update_statistics`, from the entry set `get_all_feedback` returns. -/
theorem C7_stats_never_drift :
    (∀ (st : FileState) (fb : FeedbackEntry) (w : WriteOutcome),
      StateInv st → WFEntry fb → StateInv (save_feedback st fb w).1) ∧
    (∀ (st : FileState) (w : WriteOutcome),
      StateInv st → StateInv (clear_all_feedback st w).1) ∧
    StateInv FileState.missing ∧
    (∀ st : FileState, StateInv st →
      ∃ s fs, get_feedback_stats st = .ok s ∧ get_all_feedback st = .ok fs ∧
        aggregateOfEntries fs = s) :=
  ⟨save_preserves_inv, clear_preserves_inv, trivial, fun _ h => stateInv_agree h⟩

/-- C7 (witness): after one concrete successful save into the empty
store, the invariant holds and the snapshot agrees with the recomputed
aggregate. -/
theorem C7_stats_never_drift_witness :
    StateInv (save_feedback FileState.missing fbSample WriteOutcome.ok).1 ∧
    (∃ s fs,
      get_feedback_stats (save_feedback FileState.missing fbSample WriteOutcome.ok).1 =
        .ok s ∧
      get_all_feedback (save_feedback FileState.missing fbSample WriteOutcome.ok).1 =
        .ok fs ∧
      aggregateOfEntries fs = s) := by
  have h := C7_stats_never_drift
  have h1 : StateInv (save_feedback FileState.missing fbSample WriteOutcome.ok).1 :=
    h.1 FileState.missing fbSample WriteOutcome.ok h.2.2.1 ⟨by decide, by decide⟩
  exact ⟨h1, h.2.2.2 _ h1⟩

/-! # Claim C9 -/

theorem saveAll_entries :
    ∀ (fs : List FeedbackEntry) (st : FileState) (es : List JValue),
      HasEntries st es → (∀ d ∈ es, (dict_to_feedback_entry d).isSome) →
      (∀ f ∈ fs, WFEntry f) →
      get_all_feedback (saveAll st fs) =
        .ok (es.filterMap dict_to_feedback_entry ++ fs) := by
  intro fs
  induction fs with
  | nil =>
    intro st es hE hwf _
    show get_all_feedback st = _
    unfold HasEntries at hE
    simp only [get_all_feedback, hE, List.append_nil]
  | cons f fs ih =>
    intro st es hE hwf hWF
    obtain ⟨_, hE', hwf'⟩ :=
      save_feedback_ok_entries f hE hwf (hWF f (List.mem_cons_self f fs))
    show get_all_feedback (saveAll (save_feedback st f .ok).1 fs) = _
    rw [ih _ _ hE' hwf' (fun g hg => hWF g (List.mem_cons_of_mem _ hg))]
    rw [List.filterMap_append]
    simp [conv_entryToDict (hWF f (List.mem_cons_self f fs))]

/-- C9: round-trip.  Appending any sequence of valid feedback entries
to the (empty) store via `save_feedback` and then reading
`get_all_feedback` yields exactly those entries, in insertion order,
with identical field values — including the timestamp, which
round-trips exactly through `isoformat` / `fromisoformat`. -/
theorem C9_save_then_read_roundtrip (fs : List FeedbackEntry)
    (h : ∀ f ∈ fs, WFEntry f) :
    get_all_feedback (saveAll FileState.missing fs) = .ok fs := by
  have hbase := saveAll_entries fs FileState.missing [] rfl (by simp) h
  simpa using hbase

/-- C9 (witness): a concrete two-entry round-trip (one entry with a
comment and a fractional-second timestamp). -/
theorem C9_save_then_read_roundtrip_witness :
    get_all_feedback (saveAll FileState.missing [fbSample, fbSample2]) =
      .ok [fbSample, fbSample2] :=
  C9_save_then_read_roundtrip [fbSample, fbSample2] (by
    intro f hf
    fin_cases hf <;> exact ⟨by decide, by decide⟩)

end JokeCli
